import Mathlib

/-!
Verification development for the Vietnamese-DBPedia semantic-web pipeline
(`src/ontology/vietnam_ontology.py`, `src/collectors/wikipedia_collector.py`,
`src/transformers/rdf_transformer.py`, `src/entity_linking/entity_linker.py`).

Strings are modelled as `List Char` (`Str`).  Python `dict`s are modelled as
association lists with Python's insertion-order semantics (overwriting a key
keeps its position, fresh keys are appended).  Numeric scores are modelled as
rationals; the source's floats are only ever produced by exact small-integer
arithmetic in the properties considered here.  Case mapping (`str.lower`)
is modelled on the ASCII range; all concrete inputs below exercise only
ASCII case distinctions.
-/

/-- Strings as lists of characters. -/
abbrev Str := List Char

/-- ASCII case mapping of Python `str.lower` (non-ASCII-uppercase characters
are left unchanged; the inputs below never contain non-ASCII uppercase). -/
def lowerChar (c : Char) : Char :=
  if 65 ≤ c.toNat ∧ c.toNat ≤ 90 then Char.ofNat (c.toNat + 32) else c

/-- Python `str.lower` on the ASCII range. -/
def lowerStr (s : Str) : Str := s.map lowerChar

/-- Decimal digit test (`\d` of Python regex on ASCII). -/
def isDigitC (c : Char) : Bool := 48 ≤ c.toNat ∧ c.toNat ≤ 57

/-- Python `\s` whitespace class (ASCII part). -/
def isWsC (c : Char) : Bool :=
  c = ' ' ∨ c = '\t' ∨ c = '\n' ∨ c.toNat = 13 ∨ c.toNat = 11 ∨ c.toNat = 12

/-- Python `\w` word class after transliteration to ASCII
(letters, digits, underscore). -/
def isWordC (c : Char) : Bool :=
  (97 ≤ c.toNat ∧ c.toNat ≤ 122) ∨ (65 ≤ c.toNat ∧ c.toNat ≤ 90) ∨
  (48 ≤ c.toNat ∧ c.toNat ≤ 57) ∨ c = '_'

/-- Source: `needle` occurs at the head of `hay`. -/
def strHeadMatch : Str → Str → Bool
  | [], _ => true
  | _ :: _, [] => false
  | n :: ns, h :: hs => n = h && strHeadMatch ns hs

/-- Python `needle in hay` substring containment. -/
def strContains (hay needle : Str) : Bool :=
  match hay with
  | [] => strHeadMatch needle []
  | _ :: t => strHeadMatch needle hay || strContains t needle

/-- Python `str.strip()` (strip leading and trailing whitespace). -/
def pyStrip (s : Str) : Str :=
  ((s.dropWhile (fun c => isWsC c)).reverse.dropWhile (fun c => isWsC c)).reverse

/-- Python `str.split()` with no argument: split on whitespace runs,
dropping empty fields. -/
def pySplitWs (s : Str) : List Str :=
  ((s.splitOnP (fun c => isWsC c)).filter (fun w => w ≠ []))

/-- Source: `" ".join ws`. -/
def joinSpace : List Str → Str
  | [] => []
  | [w] => w
  | w :: ws => w ++ ' ' :: joinSpace ws

/-- Python `str.split(sep)` for a single-character separator
(always returns at least one field, keeps empty fields). -/
def splitOnChar (sep : Char) (s : Str) : List Str :=
  s.splitOnP (fun c => c = sep)

/-! ## Python dictionaries

Association lists with Python-`dict` semantics: `dictInsert` overwrites an
existing key in place, appends a fresh key; `dictUpdate` folds `dictInsert`
over the second dictionary (`d1.update(d2)`). -/

/-- Source: `d[k] = v` with Python `dict` ordering semantics. -/
def dictInsert {α : Type} (d : List (Str × α)) (k : Str) (v : α) : List (Str × α) :=
  match d with
  | [] => [(k, v)]
  | (k', v') :: t => if k' = k then (k', v) :: t else (k', v') :: dictInsert t k v

/-- Source: `d.get(k)` / `k in d` lookup. -/
def dictGet {α : Type} (d : List (Str × α)) (k : Str) : Option α :=
  match d with
  | [] => none
  | (k', v') :: t => if k' = k then some v' else dictGet t k

/-- Source: `d1.update(d2)`. -/
def dictUpdate {α : Type} (d1 d2 : List (Str × α)) : List (Str × α) :=
  d2.foldl (fun acc kv => dictInsert acc kv.1 kv.2) d1

/-! ## RDF data model (rdflib shallow embedding)

An rdflib node is a URI reference or a literal; a literal carries its value
(string, rational or integer — floats only arise from exact conversions
here), an optional language tag and an optional datatype URI.  An rdflib
`Graph` is a set of triples; we model it as a duplicate-free list with
set-semantics insertion. -/

inductive LitVal where
  | str (s : Str)
  | num (q : ℚ)
  | int (i : Int)
deriving DecidableEq, Repr

inductive Node where
  | uri (u : Str)
  | lit (v : LitVal) (lang : Option Str) (dt : Option Str)
deriving DecidableEq, Repr

structure Triple where
  subj : Str
  pred : Str
  obj : Node
deriving DecidableEq, Repr

/-- An rdflib `Graph`: list of triples with set-semantics `add`. -/
abbrev RdfGraph := List Triple

/-- Source: `graph.add(t)` (rdflib graphs are sets: duplicates are ignored). -/
def graphAdd (g : RdfGraph) (t : Triple) : RdfGraph :=
  if t ∈ g then g else g ++ [t]

/-- Well-known vocabulary URIs used by the source. -/
def rdfType : Str := "http://www.w3.org/1999/02/22-rdf-syntax-ns#type".toList

def rdfsDomain : Str := "http://www.w3.org/2000/01/rdf-schema#domain".toList

def rdfsRange : Str := "http://www.w3.org/2000/01/rdf-schema#range".toList

def rdfsLabel : Str := "http://www.w3.org/2000/01/rdf-schema#label".toList

def owlSameAs : Str := "http://www.w3.org/2002/07/owl#sameAs".toList

def rdfsSeeAlso : Str := "http://www.w3.org/2000/01/rdf-schema#seeAlso".toList

def xsdDate : Str := "http://www.w3.org/2001/XMLSchema#date".toList

def xsdInteger : Str := "http://www.w3.org/2001/XMLSchema#integer".toList

def xsdString : Str := "http://www.w3.org/2001/XMLSchema#string".toList

def xsdDouble : Str := "http://www.w3.org/2001/XMLSchema#double".toList

def xsdDateTime : Str := "http://www.w3.org/2001/XMLSchema#dateTime".toList

/-! ## `VietnamOntology.validate_triple`
(`src/ontology/vietnam_ontology.py`, lines 184–208).

The method reads only `self.graph` — the graph owned by the
`VietnamOntology` instance, which holds the schema triples built at
construction time.  `g` below is that graph.  The `try/except` wrapper of
the source cannot fire in this pure embedding (all the operations used are
total), so the fail-closed clause is vacuous here. -/

/-- Source: `graph.objects(p, pred)`: objects of all triples with subject `p` and
predicate `pred`. -/
def graphObjects (g : RdfGraph) (s p : Str) : List Node :=
  (g.filter (fun t => t.subj = s ∧ t.pred = p)).map (·.obj)

/-- Source: `any(self.graph.triples((s, RDF.type, o)))`. -/
def typeAsserted (g : RdfGraph) (s : Str) (o : Node) : Bool :=
  g.any (fun t => t.subj = s ∧ t.pred = rdfType ∧ t.obj = o)

/-- Source: `VietnamOntology.validate_triple`, translated clause by clause:
(a) the predicate must have some `rdf:type` triple in `g`;
(b) every `rdfs:domain` of the predicate in `g` must be a declared
`rdf:type` of the subject in `g`;
(c) if the object is a URI, every `rdfs:range` of the predicate in `g`
must be a declared `rdf:type` of the object in `g`. -/
def validateTriple (g : RdfGraph) (subject predicate : Str) (obj : Node) : Bool :=
  (g.any (fun t => t.subj = predicate ∧ t.pred = rdfType)) &&
  ((graphObjects g predicate rdfsDomain).all (fun d => typeAsserted g subject d)) &&
  (match obj with
   | Node.uri u => (graphObjects g predicate rdfsRange).all (fun r => typeAsserted g u r)
   | Node.lit _ _ _ => true)

/-- Source: `RDFTransformer.validate_rdf` error collection
(`src/transformers/rdf_transformer.py`, lines 418–427): the triples of the
working graph that fail `validate_triple` against the ontology's graph. -/
def validateRdfErrors (ontGraph workGraph : RdfGraph) : List Triple :=
  workGraph.filter (fun t => ¬ validateTriple ontGraph t.subj t.pred t.obj)

/-- The behaviour claimed by the specification: identical to
`validateTriple` except that the asserted-type lookups for domain and range
are made in the graph under validation `gv` (the graph being built) rather
than in the ontology's own graph `g`. -/
def validateTripleClaimed (g gv : RdfGraph) (subject predicate : Str) (obj : Node) : Bool :=
  (g.any (fun t => t.subj = predicate ∧ t.pred = rdfType)) &&
  ((graphObjects g predicate rdfsDomain).all (fun d => typeAsserted gv subject d)) &&
  (match obj with
   | Node.uri u => (graphObjects g predicate rdfsRange).all (fun r => typeAsserted gv u r)
   | Node.lit _ _ _ => true)

/-- Concrete schema for the C1 counterexample: one declared property
`birthDate` with domain `Person`. -/
def c1OntGraph : RdfGraph :=
  [⟨"http://vi.dbpedia.org/property/birthDate".toList, rdfType,
    Node.uri "http://www.w3.org/2002/07/owl#DatatypeProperty".toList⟩,
   ⟨"http://vi.dbpedia.org/property/birthDate".toList, rdfsDomain,
    Node.uri "http://vi.dbpedia.org/ontology/Person".toList⟩]

/-- Concrete working graph for the C1 counterexample: a subject typed as
`Person` (in the graph under validation) carrying a `birthDate` literal. -/
def c1WorkGraph : RdfGraph :=
  [⟨"http://vi.dbpedia.org/resource/A".toList, rdfType,
    Node.uri "http://vi.dbpedia.org/ontology/Person".toList⟩,
   ⟨"http://vi.dbpedia.org/resource/A".toList,
    "http://vi.dbpedia.org/property/birthDate".toList,
    Node.lit (LitVal.str "1990-01-01".toList) none none⟩]

/-! ## `EntityLinker._calculate_confidence`
(`src/entity_linking/entity_linker.py`, lines 411–435). -/

/-- The fixed metric weight table of `_calculate_confidence`. -/
def metricWeights : List (Str × ℚ) :=
  [("levenshtein".toList, 1/5), ("ratio".toList, 1/4),
   ("partial_ratio".toList, 3/20), ("token_sort_ratio".toList, 1/5),
   ("token_set_ratio".toList, 3/20), ("jaccard".toList, 1/20)]

/-- The `for metric, score in scores.items()` accumulation loop:
returns `(weighted_sum, total_weight)`. -/
def confFold (scores : List (Str × ℚ)) : ℚ × ℚ :=
  scores.foldl
    (fun acc ms =>
      match dictGet metricWeights ms.1 with
      | some w => (acc.1 + ms.2 * w, acc.2 + w)
      | none => acc)
    (0, 0)

/-- Source: `EntityLinker._calculate_confidence`. -/
def calculateConfidence (scores : List (Str × ℚ)) : ℚ :=
  let a := confFold scores
  if a.2 > 0 then a.1 / a.2 else 0

/-- The weight of a metric key, `0` for unrecognized keys. -/
def weightOf (k : Str) : ℚ := (dictGet metricWeights k).getD 0

/-- The specification's formulation of the aggregate: restrict to the
entries whose key is in the weight table, return the weighted sum divided
by the total matched weight, and `0` if no recognized metric is present. -/
def specConfidence (scores : List (Str × ℚ)) : ℚ :=
  let recog := scores.filter (fun ms => (dictGet metricWeights ms.1).isSome)
  if recog = [] then 0
  else (recog.map (fun ms => ms.2 * weightOf ms.1)).sum /
       (recog.map (fun ms => weightOf ms.1)).sum

/-! ## Similarity metrics
(`EntityLinker._calculate_similarity_scores` and `_normalize_text`,
`src/entity_linking/entity_linker.py`, lines 378–409 and 437–451).

The Levenshtein distance and the word-level Jaccard similarity are
translated from the source.  The four `fuzzywuzzy` scores are third-party
library calls whose code is not part of this repository; they are
*modelled from the spec* (§4.4): whole-string fuzzy ratio, best-window
partial ratio, token-sort ratio and token-set ratio, as percentages in
`[0, 100]`, with integer rounding omitted.  `unidecode` is likewise
modelled by a transliteration table restricted to the characters appearing
in this development (ASCII is the identity). -/

/-- Modelled from the spec: the `unidecode` transliteration, restricted to
ASCII (identity) and the lowercase Vietnamese letters used below; other
characters are dropped. -/
def unidecodeChar (c : Char) : Str :=
  if c.toNat ≤ 127 then [c] else
  match c with
  | 'à' | 'á' | 'ả' | 'ã' | 'ạ' | 'ă' | 'ằ' | 'ắ' | 'ẳ' | 'ẵ' | 'ặ'
  | 'â' | 'ầ' | 'ấ' | 'ẩ' | 'ẫ' | 'ậ' => ['a']
  | 'è' | 'é' | 'ẻ' | 'ẽ' | 'ẹ' | 'ê' | 'ề' | 'ế' | 'ể' | 'ễ' | 'ệ' => ['e']
  | 'ì' | 'í' | 'ỉ' | 'ĩ' | 'ị' => ['i']
  | 'ò' | 'ó' | 'ỏ' | 'õ' | 'ọ' | 'ô' | 'ồ' | 'ố' | 'ổ' | 'ỗ' | 'ộ'
  | 'ơ' | 'ờ' | 'ớ' | 'ở' | 'ỡ' | 'ợ' => ['o']
  | 'ù' | 'ú' | 'ủ' | 'ũ' | 'ụ' | 'ư' | 'ừ' | 'ứ' | 'ử' | 'ữ' | 'ự' => ['u']
  | 'ỳ' | 'ý' | 'ỷ' | 'ỹ' | 'ỵ' => ['y']
  | 'đ' => ['d']
  | _ => []

/-- Source: `EntityLinker._normalize_text`: lowercase, transliterate diacritics,
remove non-word non-space characters, collapse whitespace. -/
def normalizeText (s : Str) : Str :=
  let t1 := lowerStr s
  let t2 := t1.flatMap unidecodeChar
  let t3 := t2.filter (fun c => isWordC c || isWsC c)
  joinSpace (pySplitWs t3)

/-- Unit-cost Levenshtein edit distance (the `Levenshtein.distance` library
call; classic insert/delete/substitute recurrence). -/
def levDist : Str → Str → Nat
  | [], ys => ys.length
  | xs, [] => xs.length
  | x :: xs, y :: ys =>
      if x = y then levDist xs ys
      else 1 + min (levDist xs ys) (min (levDist (x :: xs) ys) (levDist xs (y :: ys)))
termination_by xs ys => xs.length + ys.length
decreasing_by all_goals simp_arith

/-- Insert/delete-only edit distance (used by the fuzzy-ratio model:
`ratio = (|a| + |b| - indel) / (|a| + |b|)`). -/
def indelDist : Str → Str → Nat
  | [], ys => ys.length
  | xs, [] => xs.length
  | x :: xs, y :: ys =>
      if x = y then indelDist xs ys
      else 1 + min (indelDist (x :: xs) ys) (indelDist xs (y :: ys))
termination_by xs ys => xs.length + ys.length
decreasing_by all_goals simp_arith

/-- Modelled from the spec: `fuzz.ratio` as a percentage — the normalized
indel similarity, `100` when both strings are empty. -/
def pyRatio (a b : Str) : ℚ :=
  if a.length + b.length = 0 then 100
  else 100 * (((a.length + b.length : ℚ) - indelDist a b) / ((a.length : ℚ) + b.length))

/-- All contiguous windows of length `n` of a string. -/
def windowsList (n : Nat) : Str → List Str
  | [] => if n = 0 then [[]] else []
  | c :: t => if (c :: t).length < n then [] else (c :: t).take n :: windowsList n t

/-- Maximum of a list of rationals, `0` for the empty list. -/
def maxQ (l : List ℚ) : ℚ := l.foldr max 0

/-- Modelled from the spec: `fuzz.partial_ratio` — the best `pyRatio` of
the shorter string against any window of its length in the longer one. -/
def pyPartialRatio (a b : Str) : ℚ :=
  let p := if a.length ≤ b.length then (a, b) else (b, a)
  maxQ ((windowsList p.1.length p.2).map (fun w => pyRatio p.1 w))

/-- Lexicographic comparison on code points (Python `<=` on strings). -/
def strLe : Str → Str → Bool
  | [], _ => true
  | _ :: _, [] => false
  | x :: xs, y :: ys => if x = y then strLe xs ys else decide (x.toNat < y.toNat)

/-- Sort a token list (stable; Python's `sorted` is stable). -/
def sortTokens (ts : List Str) : List Str :=
  ts.insertionSort (fun a b => strLe a b)

/-- Modelled from the spec: `fuzz.token_sort_ratio` — split into tokens,
sort them, rejoin, compare with `pyRatio`. -/
def pyTokenSortRatio (a b : Str) : ℚ :=
  pyRatio (joinSpace (sortTokens (pySplitWs a))) (joinSpace (sortTokens (pySplitWs b)))

/-- Modelled from the spec: `fuzz.token_set_ratio` — compare the sorted
token intersection against the intersection extended by either side's
leftover tokens, and the two extensions against each other; best score
wins. -/
def pyTokenSetRatio (a b : Str) : ℚ :=
  let t1 := (pySplitWs a).dedup
  let t2 := (pySplitWs b).dedup
  let inter := sortTokens (t1.filter (fun w => w ∈ t2))
  let d1 := sortTokens (t1.filter (fun w => w ∉ t2))
  let d2 := sortTokens (t2.filter (fun w => w ∉ t1))
  let s0 := joinSpace inter
  let s1 := joinSpace (inter ++ d1)
  let s2 := joinSpace (inter ++ d2)
  max (pyRatio s0 s1) (max (pyRatio s0 s2) (pyRatio s1 s2))

/-- Source: `EntityLinker._calculate_similarity_scores`: the six-metric score
dictionary, in the insertion order of the source. -/
def calculateSimilarityScores (text1 text2 : Str) : List (Str × ℚ) :=
  let n1 := normalizeText text1
  let n2 := normalizeText text2
  let maxLen := max n1.length n2.length
  let w1 := (pySplitWs n1).toFinset
  let w2 := (pySplitWs n2).toFinset
  [("levenshtein".toList,
      if 0 < maxLen then 1 - (levDist n1 n2 : ℚ) / (maxLen : ℚ) else 1),
   ("ratio".toList, pyRatio n1 n2 / 100),
   ("partial_ratio".toList, pyPartialRatio n1 n2 / 100),
   ("token_sort_ratio".toList, pyTokenSortRatio n1 n2 / 100),
   ("token_set_ratio".toList, pyTokenSetRatio n1 n2 / 100),
   ("jaccard".toList,
      if w1 ≠ ∅ ∨ w2 ≠ ∅ then
        (if 0 < (w1 ∪ w2).card then ((w1 ∩ w2).card : ℚ) / ((w1 ∪ w2).card : ℚ) else 0)
      else 1)]

/-! ## `EntityMatch` and the matching post-processing
(`src/entity_linking/entity_linker.py`: the `EntityMatch` dataclass,
`_deduplicate_matches` (lines 567–576) and the tail of
`find_matching_entities` (lines 143–162)). -/

structure EntityMatch where
  vietnameseEntity : Str
  englishEntity : Str
  dbpediaUri : Str
  confidenceScore : ℚ
  similarityScores : List (Str × ℚ)
  matchMethod : Str
  additionalInfo : List (Str × Str) := []
deriving DecidableEq, Repr

/-- One iteration of the `_deduplicate_matches` loop:
`if uri not in unique_matches or match.confidence_score >
unique_matches[uri].confidence_score: unique_matches[uri] = match`. -/
def dedupStep (d : List (Str × EntityMatch)) (m : EntityMatch) : List (Str × EntityMatch) :=
  match dictGet d m.dbpediaUri with
  | none => dictInsert d m.dbpediaUri m
  | some m' =>
      if m'.confidenceScore < m.confidenceScore then dictInsert d m.dbpediaUri m else d

/-- Source: `EntityLinker._deduplicate_matches`: URI-keyed dictionary fold, then
`list(unique_matches.values())` (Python-dict insertion order). -/
def deduplicateMatches (ms : List EntityMatch) : List EntityMatch :=
  (ms.foldl dedupStep []).map (·.2)

/-- The post-processing tail of `find_matching_entities`: deduplicate,
sort by confidence descending (Python's `sorted` with `reverse=True` is a
stable descending sort, modelled by a stable insertion sort), truncate to
`max_candidates` (`self.max_candidates`, initialised to 10). -/
def findMatchingPostProcess (maxCandidates : Nat) (ms : List EntityMatch) : List EntityMatch :=
  (((deduplicateMatches ms).insertionSort
      (fun a b => b.confidenceScore ≤ a.confidenceScore)).take maxCandidates)

instance : IsTotal EntityMatch (fun a b => b.confidenceScore ≤ a.confidenceScore) :=
  ⟨fun a b => le_total b.confidenceScore a.confidenceScore⟩

instance : IsTrans EntityMatch (fun a b => b.confidenceScore ≤ a.confidenceScore) :=
  ⟨fun _ _ _ h1 h2 => le_trans h2 h1⟩

def c5MatchA : EntityMatch :=
  { vietnameseEntity := "Hà Nội".toList, englishEntity := "Hanoi".toList,
    dbpediaUri := "http://dbpedia.org/resource/Hanoi".toList,
    confidenceScore := 1/2, similarityScores := [],
    matchMethod := "similarity".toList }

def c5MatchB : EntityMatch :=
  { vietnameseEntity := "Hà Nội".toList, englishEntity := "Hanoi".toList,
    dbpediaUri := "http://dbpedia.org/resource/Hanoi".toList,
    confidenceScore := 3/4, similarityScores := [],
    matchMethod := "language_link".toList }

/-! ## The matching pipeline's match construction
(`EntityLinker.find_matching_entities` and the four strategy methods,
`src/entity_linking/entity_linker.py`, lines 117–331).

The network calls (DBPedia SPARQL queries, the Wikipedia language-link
API) are external; their results enter the model as parameters:
`queryResult` stands for `_query_dbpedia_by_label`, `langResult` for a
successfully resolved language link (English title and verified DBPedia
URI), `simResults` for the `(candidate, (uri, label))` rows returned by
`_search_dbpedia_by_similarity`, and `propResults` for the `(uri, label)`
rows of the property-based SPARQL query. -/

/-- Source: `EntityLinker._find_direct_mapping`. -/
def findDirectMapping (vi : Str) (mapped : Option Str)
    (queryResult : Str → Option Str) : Option EntityMatch :=
  match mapped with
  | none => none
  | some englishName =>
      match queryResult englishName with
      | none => none
      | some uri =>
          some { vietnameseEntity := vi, englishEntity := englishName,
                 dbpediaUri := uri, confidenceScore := 19/20,
                 similarityScores := [("direct_mapping".toList, 1)],
                 matchMethod := "direct_mapping".toList,
                 additionalInfo := [("predefined".toList, "True".toList)] }

/-- Source: `EntityLinker._find_language_link_matches` (successful-path result). -/
def findLanguageLinkMatches (vi : Str) (langResult : Option (Str × Str)) :
    List EntityMatch :=
  match langResult with
  | none => []
  | some (englishTitle, uri) =>
      [{ vietnameseEntity := vi, englishEntity := englishTitle,
         dbpediaUri := uri, confidenceScore := 9/10,
         similarityScores := [("language_link".toList, 1)],
         matchMethod := "language_link".toList,
         additionalInfo := [("wikipedia_link".toList, "True".toList)] }]

/-- Source: `EntityLinker._find_similarity_matches`: score each returned label
against the original Vietnamese name, keep confidence ≥ 0.5. -/
def findSimilarityMatches (vi : Str) (simResults : List (Str × Str × Str)) :
    List EntityMatch :=
  simResults.filterMap (fun row =>
    let scores := calculateSimilarityScores vi row.2.2
    let confidence := calculateConfidence scores
    if 1/2 ≤ confidence then
      some { vietnameseEntity := vi, englishEntity := row.2.2,
             dbpediaUri := row.2.1, confidenceScore := confidence,
             similarityScores := scores, matchMethod := "similarity".toList,
             additionalInfo := [("candidate".toList, row.1)] }
    else none)

/-- Source: `EntityLinker._find_property_based_matches`: same scoring with the
looser 0.4 threshold. -/
def findPropertyBasedMatches (vi : Str) (propResults : List (Str × Str)) :
    List EntityMatch :=
  propResults.filterMap (fun row =>
    let scores := calculateSimilarityScores vi row.2
    let confidence := calculateConfidence scores
    if 2/5 ≤ confidence then
      some { vietnameseEntity := vi, englishEntity := row.2,
             dbpediaUri := row.1, confidenceScore := confidence,
             similarityScores := scores, matchMethod := "property_based".toList,
             additionalInfo := [("sparql_query".toList, "True".toList)] }
    else none)

/-- Source: `EntityLinker.find_matching_entities`: union of the four strategies,
deduplicated, sorted by confidence descending, truncated to
`max_candidates` = 10. -/
def findMatchingEntities (vi : Str) (mapped : Option Str)
    (queryResult : Str → Option Str) (langResult : Option (Str × Str))
    (simResults : List (Str × Str × Str)) (propResults : List (Str × Str)) :
    List EntityMatch :=
  let direct := match findDirectMapping vi mapped queryResult with
    | some m => [m]
    | none => []
  findMatchingPostProcess 10
    (direct ++ findLanguageLinkMatches vi langResult ++
     findSimilarityMatches vi simResults ++ findPropertyBasedMatches vi propResults)

def c8DirectConcrete : EntityMatch :=
  { vietnameseEntity := "Hà Nội".toList, englishEntity := "Hanoi".toList,
    dbpediaUri := "http://dbpedia.org/resource/Hanoi".toList,
    confidenceScore := 19/20,
    similarityScores := [("direct_mapping".toList, 1)],
    matchMethod := "direct_mapping".toList,
    additionalInfo := [("predefined".toList, "True".toList)] }

/-! ## Self-link suppression and RDF export of links
(`EntityLinker._is_self_link`, lines 695–731, and
`EntityLinker.export_links_to_rdf`, lines 631–693). -/

/-- Uppercase hex digit. -/
def hexDigit (n : Nat) : Char :=
  if n < 10 then Char.ofNat (48 + n) else Char.ofNat (55 + n)

/-- UTF-8 encoding of one character (byte values). -/
def utf8Bytes (c : Char) : List Nat :=
  let n := c.toNat
  if n < 128 then [n]
  else if n < 2048 then [192 + n / 64, 128 + n % 64]
  else if n < 65536 then [224 + n / 4096, 128 + (n / 64) % 64, 128 + n % 64]
  else [240 + n / 262144, 128 + (n / 4096) % 64, 128 + (n / 64) % 64, 128 + n % 64]

/-- Characters `urllib.parse.quote` never encodes (`safe=''`). -/
def isUnreservedC (c : Char) : Bool :=
  (97 ≤ c.toNat ∧ c.toNat ≤ 122) ∨ (65 ≤ c.toNat ∧ c.toNat ≤ 90) ∨
  (48 ≤ c.toNat ∧ c.toNat ≤ 57) ∨ c = '_' ∨ c = '.' ∨ c = '-' ∨ c = '~'

/-- Source: `urllib.parse.quote(s, safe='')`: percent-encode the UTF-8 bytes of
every non-unreserved character. -/
def pyQuote (s : Str) : Str :=
  s.flatMap (fun c =>
    if isUnreservedC c then [c]
    else (utf8Bytes c).flatMap (fun b => ['%', hexDigit (b / 16), hexDigit (b % 16)]))

/-- Source: `s.replace(' ', '_')`. -/
def spaceToUnderscore (s : Str) : Str :=
  s.map (fun c => if c = ' ' then '_' else c)

/-- Python `str(n)` for naturals. -/
def natToStr (n : Nat) : Str := Nat.toDigits 10 n

/-- Python `str(i)` for integers. -/
def intToStr (i : Int) : Str :=
  if i < 0 then '-' :: natToStr i.natAbs else natToStr i.natAbs

/-- The `vietnamese_patterns` list of `_is_self_link`. -/
def vietnamesePatterns : List Str :=
  ["vi.dbpedia.org".toList, "/vi/".toList, "vietnamese".toList, "viet".toList]

/-- Modelled from the `unicodedata` NFD + combining-mark filter of
`_is_self_link`, restricted to the characters used in this development:
precomposed Vietnamese vowels lose their diacritics ('đ' has no canonical
decomposition and is kept); other characters are unchanged. -/
def stripDiacriticChar (c : Char) : Char :=
  match c with
  | 'à' | 'á' | 'ả' | 'ã' | 'ạ' | 'ă' | 'ằ' | 'ắ' | 'ẳ' | 'ẵ' | 'ặ'
  | 'â' | 'ầ' | 'ấ' | 'ẩ' | 'ẫ' | 'ậ' => 'a'
  | 'À' | 'Á' | 'Ả' | 'Ã' | 'Ạ' | 'Â' => 'A'
  | 'è' | 'é' | 'ẻ' | 'ẽ' | 'ẹ' | 'ê' | 'ề' | 'ế' | 'ể' | 'ễ' | 'ệ' => 'e'
  | 'ì' | 'í' | 'ỉ' | 'ĩ' | 'ị' => 'i'
  | 'ò' | 'ó' | 'ỏ' | 'õ' | 'ọ' | 'ô' | 'ồ' | 'ố' | 'ổ' | 'ỗ' | 'ộ'
  | 'ơ' | 'ờ' | 'ớ' | 'ở' | 'ỡ' | 'ợ' => 'o'
  | 'Ò' | 'Ó' | 'Ỏ' | 'Õ' | 'Ọ' | 'Ô' => 'O'
  | 'ù' | 'ú' | 'ủ' | 'ũ' | 'ụ' | 'ư' | 'ừ' | 'ứ' | 'ử' | 'ữ' | 'ự' => 'u'
  | 'ỳ' | 'ý' | 'ỷ' | 'ỹ' | 'ỵ' => 'y'
  | _ => c

/-- NFD-based diacritic stripping of `_is_self_link`. -/
def stripDiacriticsNFD (s : Str) : Str := s.map stripDiacriticChar

/-- Source: `EntityLinker._is_self_link`: URI mentions a Vietnamese-graph pattern,
or the normalized names coincide, or the candidate is the source stripped
of diacritics. -/
def isSelfLink (vietnameseEntity englishEntity dbpediaUri : Str) : Bool :=
  if vietnamesePatterns.any (fun p => strContains (lowerStr dbpediaUri) p) then true
  else if normalizeText vietnameseEntity = normalizeText englishEntity then true
  else if normalizeText (stripDiacriticsNFD vietnameseEntity) =
      normalizeText englishEntity then true
  else false

def viresNs : Str := "http://vi.dbpedia.org/resource/".toList

def dbpediaResNs : Str := "http://dbpedia.org/resource/".toList

def confidenceScoreProp : Str := "http://vi.dbpedia.org/property/confidenceScore".toList

def matchMethodProp : Str := "http://vi.dbpedia.org/property/matchMethod".toList

def linkedEntityProp : Str := "http://vi.dbpedia.org/property/linkedEntity".toList

def sourceEntityProp : Str := "http://vi.dbpedia.org/property/sourceEntity".toList

/-- The six triples `export_links_to_rdf` adds for one (non-self-link)
match.  `h` stands for Python's builtin `hash` (process-dependent, so a
parameter of the model), rendered in decimal for the synthetic link node. -/
def exportMatchTriples (h : Str → Int) (viUri entity : Str) (m : EntityMatch) : List Triple :=
  let enUri := dbpediaResNs ++ pyQuote (spaceToUnderscore m.englishEntity)
  let linkUri := viUri ++ "_link_".toList ++ intToStr (h m.englishEntity)
  [(if 9/10 ≤ m.confidenceScore then ⟨viUri, owlSameAs, Node.uri enUri⟩
    else ⟨viUri, rdfsSeeAlso, Node.uri enUri⟩),
   ⟨viUri, rdfsLabel, Node.lit (LitVal.str entity) (some "vi".toList) none⟩,
   ⟨linkUri, confidenceScoreProp,
     Node.lit (LitVal.num m.confidenceScore) none (some xsdDouble)⟩,
   ⟨linkUri, matchMethodProp, Node.lit (LitVal.str m.matchMethod) none none⟩,
   ⟨linkUri, linkedEntityProp, Node.uri enUri⟩,
   ⟨linkUri, sourceEntityProp, Node.uri viUri⟩]

/-- The per-entity loop of `export_links_to_rdf`: skip self-links, add the
six triples for every other match. -/
def exportEntityLinks (h : Str → Int) (entity : Str) (ms : List EntityMatch)
    (g : RdfGraph) : RdfGraph :=
  let viUri := viresNs ++ pyQuote (spaceToUnderscore entity)
  ms.foldl
    (fun g m =>
      if isSelfLink entity m.englishEntity m.dbpediaUri then g
      else (exportMatchTriples h viUri entity m).foldl graphAdd g)
    g

/-- Source: `EntityLinker.export_links_to_rdf`: fold the per-entity loop over the
matches dictionary. -/
def exportLinksToRdf (h : Str → Int) (matchesMap : List (Str × List EntityMatch)) :
    RdfGraph :=
  matchesMap.foldl (fun g em => exportEntityLinks h em.1 em.2 g) []

def c6HanoiSelfMatch : EntityMatch :=
  { vietnameseEntity := "Hà Nội".toList, englishEntity := "Hà Nội".toList,
    dbpediaUri := "http://vi.dbpedia.org/resource/Hà_Nội".toList,
    confidenceScore := 1, similarityScores := [],
    matchMethod := "similarity".toList }

def c9VietnamMatch : EntityMatch :=
  { vietnameseEntity := "Việt Nam".toList, englishEntity := "Vietnam".toList,
    dbpediaUri := "http://dbpedia.org/resource/Vietnam".toList,
    confidenceScore := 1, similarityScores := [],
    matchMethod := "language_link".toList }

/-! ## The infobox parser
(`WikipediaCollector._parse_infobox_from_wikitext`, lines 260–286,
`_parse_infobox_parameters`, lines 288–325, and `_clean_wiki_markup`,
lines 327–354).

`re.sub`/`re.finditer` are modelled by deterministic scanners: for each of
the source's patterns, greedy character classes with the following
required literal make backtracking irrelevant, so a leftmost scan with a
direct matcher is exact.  The scanners take the string length as fuel
(every match consumes at least one character, so the fuel never runs
out). -/

/-- One `re.sub` pass: scan left to right, replace each leftmost match
(the matcher returns the replacement and the rest after the match),
continue after it. -/
def gsubAux (tryM : Str → Option (Str × Str)) : Nat → Str → Str
  | 0, s => s
  | _ + 1, [] => []
  | fuel + 1, c :: rest =>
      match tryM (c :: rest) with
      | some (repl, rest2) => repl ++ gsubAux tryM fuel rest2
      | none => c :: gsubAux tryM fuel rest

def gsub (tryM : Str → Option (Str × Str)) (s : Str) : Str :=
  gsubAux tryM s.length s

/-- Source: `\[\[([^|\]]+)\|([^\]]+)\]\]` → `\2`. -/
def tryWikiLinkBar (s : Str) : Option (Str × Str) :=
  match s with
  | '[' :: '[' :: rest =>
      let p1 := (rest.takeWhile (fun c => c ≠ '|' ∧ c ≠ ']'), rest.dropWhile (fun c => c ≠ '|' ∧ c ≠ ']'))
      if p1.1 = [] then none
      else
        match p1.2 with
        | '|' :: r2 =>
            let p2 := (r2.takeWhile (fun c => c ≠ ']'), r2.dropWhile (fun c => c ≠ ']'))
            if p2.1 = [] then none
            else
              match p2.2 with
              | ']' :: ']' :: r4 => some (p2.1, r4)
              | _ => none
        | _ => none
  | _ => none

/-- Source: `\[\[([^\]]+)\]\]` → `\1`. -/
def tryWikiLinkSimple (s : Str) : Option (Str × Str) :=
  match s with
  | '[' :: '[' :: rest =>
      let p1 := (rest.takeWhile (fun c => c ≠ ']'), rest.dropWhile (fun c => c ≠ ']'))
      if p1.1 = [] then none
      else
        match p1.2 with
        | ']' :: ']' :: r2 => some (p1.1, r2)
        | _ => none
  | _ => none

/-- Source: `https?://[^\s]+` recognizer, returning the rest after the URL. -/
def tryUrlBody (s : Str) : Option Str :=
  match s with
  | 'h' :: 't' :: 't' :: 'p' :: rest =>
      match (if rest.head? = some 's' then rest.tail else rest) with
      | ':' :: '/' :: '/' :: r3 =>
          let p := (r3.takeWhile (fun c => ¬ isWsC c), r3.dropWhile (fun c => ¬ isWsC c))
          if p.1 = [] then none else some p.2
      | _ => none
  | _ => none

/-- Source: `\[https?://[^\s]+ ([^\]]+)\]` → `\1`. -/
def tryExtLink (s : Str) : Option (Str × Str) :=
  match s with
  | '[' :: rest =>
      match tryUrlBody rest with
      | some (' ' :: r2) =>
          let p := (r2.takeWhile (fun c => c ≠ ']'), r2.dropWhile (fun c => c ≠ ']'))
          if p.1 = [] then none
          else
            match p.2 with
            | ']' :: r4 => some (p.1, r4)
            | _ => none
      | _ => none
  | _ => none

/-- Source: `https?://[^\s]+` → `` (bare URLs removed). -/
def tryBareUrl (s : Str) : Option (Str × Str) :=
  match tryUrlBody s with
  | some rest => some ([], rest)
  | none => none

/-- Source: `{{[^}]+}}` → `` (nested templates removed). -/
def tryTemplate (s : Str) : Option (Str × Str) :=
  match s with
  | '{' :: '{' :: rest =>
      let p := (rest.takeWhile (fun c => c ≠ '}'), rest.dropWhile (fun c => c ≠ '}'))
      if p.1 = [] then none
      else
        match p.2 with
        | '}' :: '}' :: r2 => some ([], r2)
        | _ => none
  | _ => none

/-- Source: `<[^>]+>` → `` (HTML tags removed). -/
def tryHtmlTag (s : Str) : Option (Str × Str) :=
  match s with
  | '<' :: rest =>
      let p := (rest.takeWhile (fun c => c ≠ '>'), rest.dropWhile (fun c => c ≠ '>'))
      if p.1 = [] then none
      else
        match p.2 with
        | '>' :: r2 => some ([], r2)
        | _ => none
  | _ => none

/-- The apostrophe character (U+0027), used by the bold/italic markup. -/
def aposC : Char := Char.ofNat 39

/-- Three apostrophes, a nonempty apostrophe-free run, three apostrophes:
the bold-markup pattern, replaced by its body. -/
def tryBold (s : Str) : Option (Str × Str) :=
  match s with
  | a :: b :: c :: rest =>
      if a = aposC ∧ b = aposC ∧ c = aposC then
        let p := (rest.takeWhile (fun x => x ≠ aposC), rest.dropWhile (fun x => x ≠ aposC))
        if p.1 = [] then none
        else
          match p.2 with
          | q1 :: q2 :: q3 :: r2 =>
              if q1 = aposC ∧ q2 = aposC ∧ q3 = aposC then some (p.1, r2) else none
          | _ => none
      else none
  | _ => none

/-- Two apostrophes, a nonempty apostrophe-free run, two apostrophes:
the italic-markup pattern, replaced by its body. -/
def tryItalic (s : Str) : Option (Str × Str) :=
  match s with
  | a :: b :: rest =>
      if a = aposC ∧ b = aposC then
        let p := (rest.takeWhile (fun x => x ≠ aposC), rest.dropWhile (fun x => x ≠ aposC))
        if p.1 = [] then none
        else
          match p.2 with
          | q1 :: q2 :: r2 =>
              if q1 = aposC ∧ q2 = aposC then some (p.1, r2) else none
          | _ => none
      else none
  | _ => none

/-- Source: `\s+` → `" "` (whitespace collapse). -/
def tryWsRun (s : Str) : Option (Str × Str) :=
  match s with
  | c :: _ =>
      if isWsC c then
        let p := (s.takeWhile (fun c => isWsC c), s.dropWhile (fun c => isWsC c))
        some ([' '], p.2)
      else none
  | [] => none

/-- Source: `WikipediaCollector._clean_wiki_markup`: the source's `re.sub` chain,
then whitespace collapse and strip. -/
def cleanWikiMarkup (text : Str) : Str :=
  if text = [] then []
  else
    let t1 := gsub tryWikiLinkBar text
    let t2 := gsub tryWikiLinkSimple t1
    let t3 := gsub tryExtLink t2
    let t4 := gsub tryBareUrl t3
    let t5 := gsub tryTemplate t4
    let t6 := gsub tryHtmlTag t5
    let t7 := gsub tryBold t6
    let t8 := gsub tryItalic t7
    let t9 := gsub tryWsRun t8
    pyStrip t9

/-- The brace-depth-tracking top-level pipe split of
`_parse_infobox_parameters`. -/
def splitTopLevel (content : Str) : List Str :=
  let st := content.foldl
    (fun (st : List Str × Str × Int) c =>
      if c = '{' then (st.1, st.2.1 ++ [c], st.2.2 + 1)
      else if c = '}' then (st.1, st.2.1 ++ [c], st.2.2 - 1)
      else if c = '|' ∧ st.2.2 = 0 then (st.1 ++ [pyStrip st.2.1], [], st.2.2)
      else (st.1, st.2.1 ++ [c], st.2.2))
    ([], [], 0)
  if pyStrip st.2.1 ≠ [] then st.1 ++ [pyStrip st.2.1] else st.1

/-- Source: `WikipediaCollector._parse_infobox_parameters`: skip the template
name, parse `key=value` segments, clean values, drop empty keys/values. -/
def parseInfoboxParameters (content : Str) : List (Str × Str) :=
  ((splitTopLevel content).drop 1).foldl
    (fun params part =>
      if part.any (fun c => c = '=') then
        let key := pyStrip (part.takeWhile (fun c => c ≠ '='))
        let value := cleanWikiMarkup (pyStrip ((part.dropWhile (fun c => c ≠ '=')).drop 1))
        if key ≠ [] ∧ value ≠ [] then dictInsert params key value else params
      else params)
    []

/-- Case-insensitive (ASCII) literal prefix drop. -/
def dropPrefixCI : Str → Str → Option Str
  | [], s => some s
  | _ :: _, [] => none
  | p :: ps, c :: cs => if lowerChar p = lowerChar c then dropPrefixCI ps cs else none

/-- One attempt of `{{<pattern-name>([^}]+)}}` at the current position
(IGNORECASE; greedy `[^}]+` followed by the literal `}}` admits no useful
backtracking, so the match is the maximal brace-free run).  Returns the
captured group and the rest after the match. -/
def tryInfoboxAt (pre : Str) (s : Str) : Option (Str × Str) :=
  match s with
  | '{' :: '{' :: rest =>
      match dropPrefixCI pre rest with
      | none => none
      | some r1 =>
          let p := (r1.takeWhile (fun c => c ≠ '}'), r1.dropWhile (fun c => c ≠ '}'))
          if p.1 = [] then none
          else
            match p.2 with
            | '}' :: '}' :: r2 => some (p.1, r2)
            | _ => none
  | _ => none

/-- Source: `re.finditer` for one infobox pattern: leftmost, non-overlapping. -/
def infoboxScan (pre : Str) : Nat → Str → List Str
  | 0, _ => []
  | _ + 1, [] => []
  | fuel + 1, c :: t =>
      match tryInfoboxAt pre (c :: t) with
      | some (g, rest) => g :: infoboxScan pre fuel rest
      | none => infoboxScan pre fuel t

def allInfoboxMatches (pre : Str) (s : Str) : List Str :=
  infoboxScan pre s.length s

/-- The per-match body of the inner loop of
`_parse_infobox_from_wikitext`. -/
def infoboxStep (ib : List (Str × Str)) (g : Str) : List (Str × Str) :=
  let templateName := pyStrip ((splitOnChar '|' g).headD [])
  dictUpdate (dictInsert ib "template_type".toList templateName)
    (parseInfoboxParameters g)

/-- The inner `for match in matches` loop with its
`if infobox: break`. -/
def processMatches (ib : List (Str × Str)) : List Str → List (Str × Str)
  | [] => ib
  | g :: rest =>
      let ib2 := infoboxStep ib g
      if ib2 ≠ [] then ib2 else processMatches ib2 rest

/-- The three recognized opening patterns (after the literal `{{`). -/
def infoboxPats : List Str :=
  ["Thông tin ".toList, "Infobox ".toList, "Hộp thông tin ".toList]

/-- Source: `WikipediaCollector._parse_infobox_from_wikitext`: for each pattern in
order, run the inner loop over that pattern's matches on the shared
`infobox` dictionary. -/
def parseInfoboxFromWikitext (wikitext : Str) : List (Str × Str) :=
  infoboxPats.foldl (fun ib pre => processMatches ib (allInfoboxMatches pre wikitext)) []

/-- The same fold where only each pattern's first match is ever used. -/
def parseInfoboxFirstPerPattern (wikitext : Str) : List (Str × Str) :=
  infoboxPats.foldl
    (fun ib pre =>
      match allInfoboxMatches pre wikitext with
      | [] => ib
      | g :: _ => infoboxStep ib g)
    []

/-! ## Vietnamese date parsing
(`RDFTransformer._parse_vietnamese_date`,
`src/transformers/rdf_transformer.py`, lines 301–331).

The four regex patterns are modelled by deterministic scanners (their
greedy digit classes followed by required literals admit no useful
backtracking, see the analysis at the infobox matcher) and are tried in
the source's order: `DD/MM/YYYY`, `DD-MM-YYYY`, bare `\d{4}`, and
`D tháng M, YYYY`. -/

/-- Source: `str.zfill(2)`. -/
def zfill2 (s : Str) : Str :=
  if s.length < 2 then List.replicate (2 - s.length) '0' ++ s else s

/-- Source: `f"{year}-{month.zfill(2)}-{day.zfill(2)}"`. -/
def mkIsoDate (day month year : Str) : Str :=
  year ++ '-' :: (zfill2 month ++ '-' :: zfill2 day)

/-- Source: `re.sub(r'^(ngày |tháng |năm )', '', s)`: one leading prefix removed,
alternatives tried in order. -/
def stripDatePre (s : Str) : Str :=
  if strHeadMatch "ngày ".toList s then s.drop 5
  else if strHeadMatch "tháng ".toList s then s.drop 6
  else if strHeadMatch "năm ".toList s then s.drop 4
  else s

/-- Source: `(\d{1,2})<sep>(\d{1,2})<sep>(\d{4})` at the current position: the
greedy `\d{1,2}` succeeds exactly when the maximal digit run has length 1
or 2 and is followed by the separator; `(\d{4})` takes the first four of
at least four digits. -/
def tryDMYAt (sep : Char) (s : Str) : Option (Str × Str × Str) :=
  let p1 := (s.takeWhile (fun c => isDigitC c), s.dropWhile (fun c => isDigitC c))
  if p1.1 = [] ∨ 2 < p1.1.length then none
  else
    match p1.2 with
    | c1 :: r2 =>
        if c1 = sep then
          let p2 := (r2.takeWhile (fun c => isDigitC c), r2.dropWhile (fun c => isDigitC c))
          if p2.1 = [] ∨ 2 < p2.1.length then none
          else
            match p2.2 with
            | c2 :: r3 =>
                if c2 = sep then
                  let p3 := (r3.takeWhile (fun c => isDigitC c), r3.dropWhile (fun c => isDigitC c))
                  if 4 ≤ p3.1.length then some (p1.1, p2.1, p3.1.take 4) else none
                else none
            | [] => none
        else none
    | [] => none

/-- Source: `re.search` of the separated date pattern: leftmost position wins. -/
def searchDMY (sep : Char) : Str → Option (Str × Str × Str)
  | [] => none
  | c :: t =>
      match tryDMYAt sep (c :: t) with
      | some g => some g
      | none => searchDMY sep t

/-- Source: `re.search(r'(\d{4})', s)`: first position with four consecutive
digits. -/
def searchYear : Str → Option Str
  | [] => none
  | c :: t =>
      let p := ((c :: t).takeWhile (fun c => isDigitC c), (c :: t).dropWhile (fun c => isDigitC c))
      if 4 ≤ p.1.length then some (p.1.take 4) else searchYear t

/-- Source: `(\d{1,2}) tháng (\d{1,2}), (\d{4})` at the current position. -/
def tryThangAt (s : Str) : Option (Str × Str × Str) :=
  let p1 := (s.takeWhile (fun c => isDigitC c), s.dropWhile (fun c => isDigitC c))
  if p1.1 = [] ∨ 2 < p1.1.length then none
  else
    match dropPrefixCI " tháng ".toList p1.2 with
    | none => none
    | some r2 =>
        let p2 := (r2.takeWhile (fun c => isDigitC c), r2.dropWhile (fun c => isDigitC c))
        if p2.1 = [] ∨ 2 < p2.1.length then none
        else
          match dropPrefixCI ", ".toList p2.2 with
          | none => none
          | some r3 =>
              let p3 := (r3.takeWhile (fun c => isDigitC c), r3.dropWhile (fun c => isDigitC c))
              if 4 ≤ p3.1.length then some (p1.1, p2.1, p3.1.take 4) else none

def searchThang : Str → Option (Str × Str × Str)
  | [] => none
  | c :: t =>
      match tryThangAt (c :: t) with
      | some g => some g
      | none => searchThang t

/-- Source: `RDFTransformer._parse_vietnamese_date`: lowercase, strip one prefix,
try the four patterns in order.  The `'tháng' in date_str` test selects
between two identical format strings in the source, so both its branches
produce `mkIsoDate`. -/
def parseVietnameseDate (dateStr : Str) : Option Str :=
  if dateStr = [] then none
  else
    let ds := stripDatePre (lowerStr dateStr)
    match searchDMY '/' ds with
    | some g =>
        some (if strContains ds "tháng".toList then mkIsoDate g.1 g.2.1 g.2.2
              else mkIsoDate g.1 g.2.1 g.2.2)
    | none =>
        match searchDMY '-' ds with
        | some g =>
            some (if strContains ds "tháng".toList then mkIsoDate g.1 g.2.1 g.2.2
                  else mkIsoDate g.1 g.2.1 g.2.2)
        | none =>
            match searchYear ds with
            | some y => some y
            | none =>
                match searchThang ds with
                | some g =>
                    some (if strContains ds "tháng".toList then mkIsoDate g.1 g.2.1 g.2.2
                          else mkIsoDate g.1 g.2.1 g.2.2)
                | none => none

/-! ## The RDF transformer
(`RDFTransformer`, `src/transformers/rdf_transformer.py`: `transform_article`
lines 126–175, `_determine_entity_class` 177–220, `_add_basic_properties`
222–237, `_transform_infobox` 239–258, `_process_property_value` 260–299,
`_extract_number` 333–344, `_parse_coordinates` 346–355, `_add_categories`
357–369, `_add_wikipedia_metadata` 371–385, `create_entity_uri` 96–124).

The ontology model carries the lookup tables and configured namespace
URIs that `VietnamOntology` builds from `config/ontology.yaml` (the
configuration file is external input, so the tables are parameters). -/

structure WikipediaArticle where
  title : Str
  pageId : Int
  url : Str
  abstract : Str
  content : Str
  infobox : List (Str × Str)
  categories : List Str
  templates : List Str
  language : Str := "vi".toList
  lastModified : Option Str := none
  revisionId : Option Int := none
deriving DecidableEq, Repr

structure OntologyModel where
  classes : List (Str × Str)
  properties : List (Str × Str)
  mappings : List (Str × Str)
  graph : RdfGraph
  resourceUri : Str
  propertyUri : Str
  baseUri : Str
  vidbpNs : Str
deriving DecidableEq, Repr

def foafName : Str := "http://xmlns.com/foaf/0.1/name".toList

def foafIsPrimaryTopicOf : Str := "http://xmlns.com/foaf/0.1/isPrimaryTopicOf".toList

def rdfsComment : Str := "http://www.w3.org/2000/01/rdf-schema#comment".toList

def dctDescription : Str := "http://purl.org/dc/terms/description".toList

def dctLanguage : Str := "http://purl.org/dc/terms/language".toList

def dctSubject : Str := "http://purl.org/dc/terms/subject".toList

def dctModified : Str := "http://purl.org/dc/terms/modified".toList

def skosConcept : Str := "http://www.w3.org/2004/02/skos/core#Concept".toList

def skosPrefLabel : Str := "http://www.w3.org/2004/02/skos/core#prefLabel".toList

/-- Source: `_+` → `_` for `_clean_title_for_uri`. -/
def tryUnderscoreRun (s : Str) : Option (Str × Str) :=
  match s with
  | '_' :: _ =>
      let p := (s.takeWhile (fun c => c = '_'), s.dropWhile (fun c => c = '_'))
      some (['_'], p.2)
  | _ => none

/-- Source: `RDFTransformer._clean_title_for_uri`: spaces to underscores, replace
characters outside `\w` (ASCII part) and U+00C0–U+1EF9 by underscores,
collapse underscore runs, strip underscores. -/
def cleanTitleForUri (title : Str) : Str :=
  let c1 := title.map (fun c => if c = ' ' then '_' else c)
  let c2 := c1.map (fun c =>
    if isWordC c ∨ (192 ≤ c.toNat ∧ c.toNat ≤ 7929) then c else '_')
  let c3 := gsub tryUnderscoreRun c2
  (((c3.dropWhile (fun c => c = '_')).reverse.dropWhile (fun c => c = '_')).reverse)

/-- Source: `RDFTransformer.create_entity_uri`. -/
def createEntityUri (ont : OntologyModel) (title : Str) (entityType : Str) : Str :=
  let base := if entityType = "resource".toList then ont.resourceUri
    else if entityType = "property".toList then ont.propertyUri
    else ont.baseUri
  base ++ pyQuote (cleanTitleForUri title)

/-- The `property_mappings` table of `_load_property_mappings` (the
duplicated `thành lập` key of the source's dict literal collapses to one
entry, both occurrences mapping to `foundingDate`). -/
def propertyMappings : List (Str × Str) :=
  [("ngày sinh".toList, "birthDate".toList),
   ("sinh".toList, "birthDate".toList),
   ("nơi sinh".toList, "birthPlace".toList),
   ("quê quán".toList, "birthPlace".toList),
   ("ngày mất".toList, "deathDate".toList),
   ("mất".toList, "deathDate".toList),
   ("nơi mất".toList, "deathPlace".toList),
   ("nghề nghiệp".toList, "occupation".toList),
   ("quốc tịch".toList, "nationality".toList),
   ("dân tộc".toList, "ethnicity".toList),
   ("tọa độ".toList, "coordinates".toList),
   ("diện tích".toList, "area".toList),
   ("dân số".toList, "population".toList),
   ("thành lập".toList, "foundingDate".toList),
   ("múi giờ".toList, "timeZone".toList),
   ("tỉnh".toList, "province".toList),
   ("quận".toList, "district".toList),
   ("phường".toList, "ward".toList),
   ("trụ sở".toList, "headquarters".toList),
   ("giám đốc".toList, "director".toList),
   ("hiệu trưởng".toList, "rector".toList),
   ("tên".toList, "name".toList),
   ("tên đầy đủ".toList, "fullName".toList),
   ("tên khác".toList, "alternateName".toList),
   ("mô tả".toList, "description".toList),
   ("website".toList, "homepage".toList),
   ("hình ảnh".toList, "image".toList)]

/-- The Vietnamese unit words stripped by `_extract_number`, in the
source's alternation order. -/
def unitWords : List Str :=
  ["người".toList, "km²".toList, "m²".toList, "ha".toList, "hecta".toList]

def tryUnitWord (s : Str) : Option (Str × Str) :=
  match unitWords.find? (fun w => strHeadMatch w s) with
  | some w => some ([], s.drop w.length)
  | none => none

/-- First run of digits anywhere in the string (`re.search(r'\d+')`). -/
def searchDigitRun : Str → Option Str
  | [] => none
  | c :: t =>
      if isDigitC c then some ((c :: t).takeWhile (fun c => isDigitC c))
      else searchDigitRun t

def digitsToNat (s : Str) : Nat :=
  s.foldl (fun a c => 10 * a + (c.toNat - 48)) 0

/-- Source: `RDFTransformer._extract_number`: drop separators and whitespace,
drop unit words, take the first digit run as an integer. -/
def extractNumber (text : Str) : Option Int :=
  let t1 := (lowerStr text).filter (fun c => ¬ (c = '.' ∨ c = ',' ∨ isWsC c))
  let t2 := gsub tryUnitWord t1
  match searchDigitRun t2 with
  | some ds => some (Int.ofNat (digitsToNat ds))
  | none => none

/-- Source: `\d+\.?\d*` at the current position, returning the captured number
text and the rest. -/
def tryCoordNum (s : Str) : Option (Str × Str) :=
  let p1 := (s.takeWhile (fun c => isDigitC c), s.dropWhile (fun c => isDigitC c))
  if p1.1 = [] then none
  else
    match p1.2 with
    | '.' :: r2 =>
        let p2 := (r2.takeWhile (fun c => isDigitC c), r2.dropWhile (fun c => isDigitC c))
        some (p1.1 ++ '.' :: p2.1, p2.2)
    | r => some (p1.1, r)

/-- Source: `(\d+\.?\d*)[°,\s]+(\d+\.?\d*)` at the current position. -/
def tryCoordAt (s : Str) : Option Str :=
  match tryCoordNum s with
  | none => none
  | some (n1, r1) =>
      let p := (r1.takeWhile (fun c => c = '°' ∨ c = ',' ∨ isWsC c), r1.dropWhile (fun c => c = '°' ∨ c = ',' ∨ isWsC c))
      if p.1 = [] then none
      else
        match tryCoordNum p.2 with
        | none => none
        | some (n2, _) => some (n1 ++ ',' :: n2)

/-- Source: `RDFTransformer._parse_coordinates`. -/
def parseCoordinates : Str → Option Str
  | [] => none
  | c :: t =>
      match tryCoordAt (c :: t) with
      | some r => some r
      | none => parseCoordinates t

/-- Source: `RDFTransformer._process_property_value`: returns the RDF object (or
none) and the possibly extended graph (the place branch mints a secondary
entity).  When the `Place` class is missing from the configuration the
source would raise inside rdflib; the repo's configuration always defines
it (asserted by its tests), and the model then omits only the type
triple. -/
def processPropertyValue (ont : OntologyModel) (g : RdfGraph) (value : Str)
    (propertyName : Str) : Option Node × RdfGraph :=
  if pyStrip value = [] then (none, g)
  else
    let v := pyStrip value
    if propertyName = "birthDate".toList ∨ propertyName = "deathDate".toList ∨
        propertyName = "foundingDate".toList then
      match parseVietnameseDate v with
      | some d => (some (Node.lit (LitVal.str d) none (some xsdDate)), g)
      | none => (some (Node.lit (LitVal.str v) (some "vi".toList) none), g)
    else if propertyName = "population".toList ∨ propertyName = "area".toList then
      match extractNumber v with
      | some n => (some (Node.lit (LitVal.int n) none (some xsdInteger)), g)
      | none => (some (Node.lit (LitVal.str v) (some "vi".toList) none), g)
    else if propertyName = "birthPlace".toList ∨ propertyName = "deathPlace".toList ∨
        propertyName = "province".toList ∨ propertyName = "district".toList ∨
        propertyName = "ward".toList then
      let placeUri := createEntityUri ont v "resource".toList
      let g1 := match dictGet ont.classes "Place".toList with
        | some placeClass => graphAdd g ⟨placeUri, rdfType, Node.uri placeClass⟩
        | none => g
      let g2 := graphAdd g1 ⟨placeUri, rdfsLabel, Node.lit (LitVal.str v) (some "vi".toList) none⟩
      (some (Node.uri placeUri), g2)
    else if propertyName = "homepage".toList then
      if strHeadMatch "http".toList v then (some (Node.uri v), g)
      else (some (Node.lit (LitVal.str v) (some "vi".toList) none), g)
    else if propertyName = "coordinates".toList then
      match parseCoordinates v with
      | some coords => (some (Node.lit (LitVal.str coords) none (some xsdString)), g)
      | none => (some (Node.lit (LitVal.str v) (some "vi".toList) none), g)
    else (some (Node.lit (LitVal.str v) (some "vi".toList) none), g)

/-- Source: `RDFTransformer._transform_infobox`. -/
def transformInfobox (ont : OntologyModel) (g : RdfGraph) (entityUri : Str)
    (infobox : List (Str × Str)) : RdfGraph :=
  infobox.foldl
    (fun g kv =>
      if kv.1 = "template_type".toList ∨ pyStrip kv.2 = [] then g
      else
        match dictGet propertyMappings (lowerStr kv.1) with
        | some propertyName =>
            match dictGet ont.properties propertyName with
            | some propUri =>
                let r := processPropertyValue ont g kv.2 propertyName
                match r.1 with
                | some objVal => graphAdd r.2 ⟨entityUri, propUri, objVal⟩
                | none => r.2
            | none => g
        | none =>
            let customProp := createEntityUri ont kv.1 "property".toList
            graphAdd g ⟨entityUri, customProp,
              Node.lit (LitVal.str kv.2) (some "vi".toList) none⟩)
    g

/-- Source: `RDFTransformer._add_basic_properties`. -/
def addBasicProperties (g : RdfGraph) (entityUri : Str) (art : WikipediaArticle) :
    RdfGraph :=
  let g1 := graphAdd g ⟨entityUri, rdfsLabel, Node.lit (LitVal.str art.title) (some "vi".toList) none⟩
  let g2 := graphAdd g1 ⟨entityUri, foafName, Node.lit (LitVal.str art.title) (some "vi".toList) none⟩
  let g3 := if art.abstract ≠ [] then
      graphAdd (graphAdd g2 ⟨entityUri, rdfsComment, Node.lit (LitVal.str art.abstract) (some "vi".toList) none⟩)
        ⟨entityUri, dctDescription, Node.lit (LitVal.str art.abstract) (some "vi".toList) none⟩
    else g2
  let g4 := graphAdd g3 ⟨entityUri, foafIsPrimaryTopicOf, Node.uri art.url⟩
  graphAdd g4 ⟨entityUri, dctLanguage, Node.lit (LitVal.str "vi".toList) none none⟩

/-- Literal occurrences of `Thể loại:` removed (`category.replace`). -/
def tryCategoryTag (s : Str) : Option (Str × Str) :=
  if strHeadMatch "Thể loại:".toList s then some ([], s.drop 9) else none

/-- Source: `RDFTransformer._add_categories`. -/
def addCategories (ont : OntologyModel) (g : RdfGraph) (entityUri : Str)
    (categories : List Str) : RdfGraph :=
  categories.foldl
    (fun g category =>
      let categoryUri := createEntityUri ont (gsub tryCategoryTag category) "resource".toList
      let g1 := graphAdd g ⟨categoryUri, rdfType, Node.uri skosConcept⟩
      let g2 := graphAdd g1 ⟨categoryUri, skosPrefLabel,
        Node.lit (LitVal.str category) (some "vi".toList) none⟩
      graphAdd g2 ⟨entityUri, dctSubject, Node.uri categoryUri⟩)
    g

/-- Source: `RDFTransformer._add_wikipedia_metadata`. -/
def addWikipediaMetadata (ont : OntologyModel) (g : RdfGraph) (entityUri : Str)
    (art : WikipediaArticle) : RdfGraph :=
  let g1 := graphAdd g ⟨entityUri, ont.vidbpNs ++ "wikipediaPageID".toList,
    Node.lit (LitVal.int art.pageId) none (some xsdInteger)⟩
  let g2 := match art.lastModified with
    | some lm => graphAdd g1 ⟨entityUri, dctModified,
        Node.lit (LitVal.str lm) none (some xsdDateTime)⟩
    | none => g1
  match art.revisionId with
  | some rid => graphAdd g2 ⟨entityUri, ont.vidbpNs ++ "wikipediaRevisionID".toList,
      Node.lit (LitVal.int rid) none (some xsdInteger)⟩
  | none => g2

/-- The `category_mappings` table of `_determine_class_from_categories`,
in the source's insertion order. -/
def categoryMappings : List (Str × Str) :=
  [("người".toList, "Person".toList),
   ("nhân vật".toList, "Person".toList),
   ("chính trị gia".toList, "PoliticalFigure".toList),
   ("nghệ sĩ".toList, "Artist".toList),
   ("nhà văn".toList, "Writer".toList),
   ("nhà khoa học".toList, "Scientist".toList),
   ("địa điểm".toList, "Place".toList),
   ("tỉnh".toList, "Province".toList),
   ("thành phố".toList, "City".toList),
   ("trường".toList, "University".toList),
   ("đại học".toList, "University".toList),
   ("công ty".toList, "Company".toList),
   ("tổ chức".toList, "Organization".toList),
   ("sự kiện".toList, "Event".toList),
   ("lịch sử".toList, "HistoricalEvent".toList),
   ("văn học".toList, "LiteraryWork".toList),
   ("âm nhạc".toList, "MusicalWork".toList),
   ("phim".toList, "Film".toList)]

/-- Source: `RDFTransformer._determine_class_from_categories`: first matching
keyword of the first matching category wins (its class looked up even if
absent); default: the `Person` class lookup. -/
def determineClassFromCategories (ont : OntologyModel) : List Str → Option Str
  | [] => dictGet ont.classes "Person".toList
  | c :: rest =>
      match categoryMappings.find? (fun km => strContains (lowerStr c) km.1) with
      | some km => dictGet ont.classes km.2
      | none => determineClassFromCategories ont rest

/-- Source: `RDFTransformer._determine_entity_class`. -/
def determineEntityClass (ont : OntologyModel) (art : WikipediaArticle) : Option Str :=
  match (if art.infobox ≠ [] then dictGet art.infobox "template_type".toList else none) with
  | some templateType =>
      match dictGet ont.mappings templateType with
      | some cls => some cls
      | none => determineClassFromCategories ont art.categories
  | none => determineClassFromCategories ont art.categories

structure TransformStats where
  articlesProcessed : Nat
  entitiesCreated : Nat
  triplesGenerated : Nat
  infoboxesProcessed : Nat
  failedTransformations : Nat
  templateMappings : List (Str × Nat)
deriving DecidableEq, Repr

structure TransformerState where
  graph : RdfGraph
  entityCount : Nat
  stats : TransformStats
deriving DecidableEq, Repr

/-- Source: `self.transformation_stats['template_mappings'][t] =
.get(t, 0) + 1`. -/
def bumpTemplate (tm : List (Str × Nat)) (t : Str) : List (Str × Nat) :=
  dictInsert tm t ((dictGet tm t).getD 0 + 1)

/-- Source: `RDFTransformer.transform_article`: determine the class; on success
add all triples and update the statistics, returning the number of
triples whose subject is the entity URI; when no class resolves, count a
failed transformation and return 0 without touching the graph. -/
def transformArticle (ont : OntologyModel) (art : WikipediaArticle)
    (st : TransformerState) : Nat × TransformerState :=
  let entityUri := createEntityUri ont art.title "resource".toList
  match determineEntityClass ont art with
  | some entityClass =>
      let g1 := graphAdd st.graph ⟨entityUri, rdfType, Node.uri entityClass⟩
      let g2 := addBasicProperties g1 entityUri art
      let g3 := if art.infobox ≠ [] then transformInfobox ont g2 entityUri art.infobox else g2
      let g4 := addCategories ont g3 entityUri art.categories
      let g5 := addWikipediaMetadata ont g4 entityUri art
      let stats1 :=
        { st.stats with
          articlesProcessed := st.stats.articlesProcessed + 1,
          entitiesCreated := st.stats.entitiesCreated + 1,
          infoboxesProcessed :=
            st.stats.infoboxesProcessed + (if art.infobox ≠ [] then 1 else 0),
          templateMappings :=
            if art.infobox ≠ [] then
              bumpTemplate st.stats.templateMappings
                ((dictGet art.infobox "template_type".toList).getD "unknown".toList)
            else st.stats.templateMappings }
      ((g5.filter (fun t => t.subj = entityUri)).length,
       { graph := g5, entityCount := st.entityCount + 1, stats := stats1 })
  | none =>
      (0, { st with stats :=
        { st.stats with failedTransformations := st.stats.failedTransformations + 1 } })

def c10Ont : OntologyModel :=
  { classes := [("Place".toList, "http://vi.dbpedia.org/ontology/Place".toList)],
    properties := [], mappings := [], graph := [],
    resourceUri := "http://vi.dbpedia.org/resource/".toList,
    propertyUri := "http://vi.dbpedia.org/property/".toList,
    baseUri := "http://vi.dbpedia.org/ontology/".toList,
    vidbpNs := "http://vi.dbpedia.org/property/".toList }

def c10Article : WikipediaArticle :=
  { title := "Test".toList, pageId := 1,
    url := "http://vi.wikipedia.org/wiki/Test".toList,
    abstract := [], content := [], infobox := [],
    categories := ["xyz".toList], templates := [] }

def c10State : TransformerState :=
  { graph := [], entityCount := 0,
    stats := { articlesProcessed := 0, entitiesCreated := 0, triplesGenerated := 0,
               infoboxesProcessed := 0, failedTransformations := 0,
               templateMappings := [] } }

/-- C1 counterexample: the claim says the `birthDate` triple of
`c1WorkGraph` validates (its subject is typed `Person` in the graph under
validation), but the code returns `false`, because the asserted-type lookup
is made in the ontology's own graph. -/
theorem c1_counterexample :
    validateTripleClaimed c1OntGraph c1WorkGraph
      "http://vi.dbpedia.org/resource/A".toList
      "http://vi.dbpedia.org/property/birthDate".toList
      (Node.lit (LitVal.str "1990-01-01".toList) none none) = true ∧
    validateTriple c1OntGraph
      "http://vi.dbpedia.org/resource/A".toList
      "http://vi.dbpedia.org/property/birthDate".toList
      (Node.lit (LitVal.str "1990-01-01".toList) none none) = false ∧
    validateRdfErrors c1OntGraph c1WorkGraph ≠ [] := by
  refine ⟨by decide, by decide, by decide⟩

/-- C1 (amended): `validateTriple` returns `true` iff the predicate is a
declared ontology property, every domain it declares is an asserted
`rdf:type` of the subject *in the ontology model's own graph* `g`, and —
when the object is a URI — every declared range is an asserted `rdf:type`
of the object in that same graph `g`; it returns `false` on any violation
or lookup miss. -/
theorem c1_validate_triple_characterization (g : RdfGraph) (s p : Str) (o : Node) :
    validateTriple g s p o = true ↔
      ((∃ t ∈ g, t.subj = p ∧ t.pred = rdfType) ∧
       (∀ d ∈ graphObjects g p rdfsDomain, typeAsserted g s d = true) ∧
       (∀ u, o = Node.uri u →
          ∀ r ∈ graphObjects g p rdfsRange, typeAsserted g u r = true)) := by
  unfold validateTriple
  cases o with
  | uri u =>
      simp [List.any_eq_true, List.all_eq_true]
      tauto
  | lit v lang dt =>
      simp [List.any_eq_true, List.all_eq_true]

/-- Witness for the amended C1 theorem at a concrete input: in a schema
graph that itself asserts the required type, the triple validates. -/
theorem c1_validate_triple_characterization_witness :
    validateTriple
      (c1OntGraph ++
        [⟨"http://vi.dbpedia.org/resource/A".toList, rdfType,
          Node.uri "http://vi.dbpedia.org/ontology/Person".toList⟩])
      "http://vi.dbpedia.org/resource/A".toList
      "http://vi.dbpedia.org/property/birthDate".toList
      (Node.lit (LitVal.str "1990-01-01".toList) none none) = true :=
  (c1_validate_triple_characterization _ _ _ _).mpr
    ⟨⟨⟨"http://vi.dbpedia.org/property/birthDate".toList, rdfType,
        Node.uri "http://www.w3.org/2002/07/owl#DatatypeProperty".toList⟩,
      by decide, by decide, by decide⟩,
     by decide, fun u h => by simp at h⟩

lemma weight_pos {k : Str} {w : ℚ} (h : dictGet metricWeights k = some w) : 0 < w := by
  simp only [metricWeights, dictGet] at h
  split_ifs at h <;> simp_all <;> exact h ▸ (by norm_num)

lemma weightOf_nonneg (k : Str) : 0 ≤ weightOf k := by
  unfold weightOf
  cases h : dictGet metricWeights k with
  | none => simp
  | some w => simpa using (weight_pos h).le

lemma confFold_eq (scores : List (Str × ℚ)) :
    confFold scores =
      ((scores.map (fun ms => if (dictGet metricWeights ms.1).isSome then ms.2 * weightOf ms.1 else 0)).sum,
       (scores.map (fun ms => if (dictGet metricWeights ms.1).isSome then weightOf ms.1 else 0)).sum) := by
  suffices h : ∀ init : ℚ × ℚ,
      scores.foldl
        (fun acc ms =>
          match dictGet metricWeights ms.1 with
          | some w => (acc.1 + ms.2 * w, acc.2 + w)
          | none => acc) init =
      (init.1 + (scores.map (fun ms => if (dictGet metricWeights ms.1).isSome then ms.2 * weightOf ms.1 else 0)).sum,
       init.2 + (scores.map (fun ms => if (dictGet metricWeights ms.1).isSome then weightOf ms.1 else 0)).sum) by
    simpa [confFold] using h (0, 0)
  induction scores with
  | nil => simp
  | cons ms t ih =>
      intro init
      cases h : dictGet metricWeights ms.1 with
      | none => simp [h, ih, weightOf]
      | some w => simp [h, ih, weightOf] ; constructor <;> ring

lemma sum_if_eq_filter_sum (scores : List (Str × ℚ)) (f : Str × ℚ → ℚ) :
    (scores.map (fun ms => if (dictGet metricWeights ms.1).isSome then f ms else 0)).sum =
      ((scores.filter (fun ms => (dictGet metricWeights ms.1).isSome)).map f).sum := by
  induction scores with
  | nil => simp
  | cons ms t ih =>
      by_cases h : (dictGet metricWeights ms.1).isSome = true <;> simp [h, ih]

lemma totalWeight_pos {scores : List (Str × ℚ)}
    (h : scores.filter (fun ms => (dictGet metricWeights ms.1).isSome) ≠ []) :
    0 < ((scores.filter (fun ms => (dictGet metricWeights ms.1).isSome)).map
          (fun ms => weightOf ms.1)).sum := by
  apply List.sum_pos
  · intro q hq
    rcases List.mem_map.mp hq with ⟨ms, hms, rfl⟩
    have hrec := (List.mem_filter.mp hms).2
    rcases Option.isSome_iff_exists.mp hrec with ⟨w, hw⟩
    simpa [weightOf, hw] using weight_pos hw
  · simpa using h

/-- Source: `calculateConfidence` agrees with the specification's weighted-average
formula. -/
lemma calculateConfidence_eq_spec (scores : List (Str × ℚ)) :
    calculateConfidence scores = specConfidence scores := by
  unfold calculateConfidence specConfidence
  rw [confFold_eq, sum_if_eq_filter_sum, sum_if_eq_filter_sum]
  by_cases h : scores.filter (fun ms => (dictGet metricWeights ms.1).isSome) = []
  · simp [h]
  · have hpos := totalWeight_pos h
    simp [h, hpos]

/-- C7: the aggregate equals the weighted sum over the recognized metrics
divided by their total weight (with the table's fixed weights), ignoring
unrecognized keys, `0` when no recognized metric is present; and it is
monotone: raising the score of one entry (any other entry fixed) never
decreases the aggregate. -/
theorem c7_confidence_formula_and_monotone :
    (∀ scores : List (Str × ℚ), calculateConfidence scores = specConfidence scores) ∧
    (∀ (pre post : List (Str × ℚ)) (k : Str) (v v' : ℚ), v ≤ v' →
        calculateConfidence (pre ++ (k, v) :: post) ≤
          calculateConfidence (pre ++ (k, v') :: post)) := by
  refine ⟨calculateConfidence_eq_spec, ?_⟩
  intro pre post k v v' hvv
  unfold calculateConfidence
  rw [confFold_eq, confFold_eq]
  simp only
  have htw :
      ((pre ++ (k, v) :: post).map (fun ms => if (dictGet metricWeights ms.1).isSome then weightOf ms.1 else 0)).sum =
      ((pre ++ (k, v') :: post).map (fun ms => if (dictGet metricWeights ms.1).isSome then weightOf ms.1 else 0)).sum := by
    simp
  rw [htw]
  set tw := ((pre ++ (k, v') :: post).map (fun ms => if (dictGet metricWeights ms.1).isSome then weightOf ms.1 else 0)).sum with htwdef
  by_cases hpos : tw > 0
  · simp only [hpos, if_pos]
    apply div_le_div_of_nonneg_right ?_ hpos.le
    · simp only [List.map_append, List.sum_append, List.map_cons, List.sum_cons]
      have : (if (dictGet metricWeights k).isSome then v * weightOf k else 0) ≤
             (if (dictGet metricWeights k).isSome then v' * weightOf k else 0) := by
        split
        · exact mul_le_mul_of_nonneg_right hvv (weightOf_nonneg k)
        · exact le_refl 0
      linarith
  · simp [hpos]

/-- Witness for C7 at a concrete input: raising the `ratio` score from
`1/2` to `3/4` does not decrease the aggregate. -/
theorem c7_confidence_formula_and_monotone_witness :
    calculateConfidence [("ratio".toList, (1 : ℚ)/2)] ≤
      calculateConfidence [("ratio".toList, (3 : ℚ)/4)] :=
  c7_confidence_formula_and_monotone.2 [] [] "ratio".toList (1/2) (3/4) (by norm_num)

lemma levDist_self (x : Str) : levDist x x = 0 := by
  induction x with
  | nil => simp [levDist]
  | cons c t ih => simp [levDist, ih]

lemma indelDist_self (x : Str) : indelDist x x = 0 := by
  induction x with
  | nil => simp [indelDist]
  | cons c t ih => simp [indelDist, ih]

lemma pyRatio_self (x : Str) : pyRatio x x = 100 := by
  unfold pyRatio
  cases x with
  | nil => simp
  | cons c t =>
      rw [indelDist_self]
      have hlen : ((c :: t).length : ℚ) + (c :: t).length ≠ 0 := by
        have : (0 : ℚ) < ((c :: t).length : ℚ) := by
          exact_mod_cast Nat.pos_of_ne_zero (by simp)
        linarith
      simp only [List.length_cons, Nat.cast_add, Nat.cast_ofNat, CharP.cast_eq_zero]
      field_simp

lemma windowsList_big (n : Nat) (x : Str) (h : x.length < n) : windowsList n x = [] := by
  cases x with
  | nil =>
      simp only [windowsList]
      rw [if_neg (by simp at h; omega)]
  | cons c t =>
      have h' : t.length + 1 < n := by simpa using h
      simp [windowsList, h']

lemma windowsList_self (x : Str) : windowsList x.length x = [x] := by
  cases x with
  | nil => rfl
  | cons c t =>
      have h1 : ¬ (t.length + 1 < t.length + 1) := by omega
      have h3 : windowsList (t.length + 1) t = [] := windowsList_big _ _ (by omega)
      simp [windowsList, h1, h3]

lemma pyPartialRatio_self (x : Str) : pyPartialRatio x x = 100 := by
  unfold pyPartialRatio maxQ
  simp [windowsList_self, pyRatio_self]

lemma pyTokenSortRatio_self (x : Str) : pyTokenSortRatio x x = 100 := by
  unfold pyTokenSortRatio
  exact pyRatio_self _

lemma pyTokenSetRatio_self (x : Str) : pyTokenSetRatio x x = 100 := by
  unfold pyTokenSetRatio
  simp only
  have hfull : ((pySplitWs x).dedup.filter (fun w => w ∈ (pySplitWs x).dedup)) =
      (pySplitWs x).dedup :=
    List.filter_eq_self.mpr (fun a ha => by simpa using ha)
  have hempty : ((pySplitWs x).dedup.filter (fun w => w ∉ (pySplitWs x).dedup)) = [] := by
    rw [List.filter_eq_nil_iff]
    intro a ha
    simpa using ha
  rw [hfull, hempty]
  have hnil : sortTokens ([] : List Str) = [] := rfl
  rw [hnil]
  simp [pyRatio_self]

/-- C4: on the diagonal every one of the six similarity metrics evaluates
to `1.0`, including for strings whose normalized form is empty. -/
theorem c4_similarity_scores_self (s : Str) :
    calculateSimilarityScores s s =
      [("levenshtein".toList, 1), ("ratio".toList, 1), ("partial_ratio".toList, 1),
       ("token_sort_ratio".toList, 1), ("token_set_ratio".toList, 1),
       ("jaccard".toList, 1)] := by
  unfold calculateSimilarityScores
  simp only [max_self, Finset.union_self, Finset.inter_self, or_self]
  rw [levDist_self, pyRatio_self, pyPartialRatio_self, pyTokenSortRatio_self,
    pyTokenSetRatio_self]
  norm_num
  split_ifs with h1
  all_goals norm_num
  · exact h1
  · intro h
    have hne : (pySplitWs (normalizeText s)).toFinset.Nonempty := by
      rcases List.exists_mem_of_ne_nil _ h1 with ⟨a, ha⟩
      exact ⟨a, List.mem_toFinset.mpr ha⟩
    rw [div_self (by exact_mod_cast (Finset.card_pos.mpr hne).ne')]

/-! ## Bounds of the similarity metrics (for C8). -/

lemma levDist_le (a b : Str) : levDist a b ≤ max a.length b.length := by
  induction a, b using levDist.induct with
  | case1 ys => simp [levDist]
  | case2 xs h => cases xs with
      | nil => simp [levDist]
      | cons x t => simp [levDist]
  | case3 xs y ys ih =>
      have : levDist (y :: xs) (y :: ys) = levDist xs ys := by simp [levDist]
      rw [this]
      simp only [List.length_cons]
      omega
  | case4 x xs y ys hne ih1 ih2 ih3 =>
      rw [levDist, if_neg hne]
      have h1 : min (levDist xs ys) (min (levDist (x :: xs) ys) (levDist xs (y :: ys))) ≤
          levDist xs ys := min_le_left _ _
      simp only [List.length_cons]
      omega

lemma indelDist_le (a b : Str) : indelDist a b ≤ a.length + b.length := by
  induction a, b using indelDist.induct with
  | case1 ys => simp [indelDist]
  | case2 xs h => cases xs with
      | nil => simp [indelDist]
      | cons x t => simp [indelDist]
  | case3 xs y ys ih =>
      have : indelDist (y :: xs) (y :: ys) = indelDist xs ys := by simp [indelDist]
      rw [this]
      simp only [List.length_cons]
      omega
  | case4 x xs y ys hne ih1 ih2 =>
      rw [indelDist, if_neg hne]
      have h1 : min (indelDist (x :: xs) ys) (indelDist xs (y :: ys)) ≤
          indelDist (x :: xs) ys := min_le_left _ _
      simp only [List.length_cons] at *
      omega

lemma pyRatio_bounds (a b : Str) : 0 ≤ pyRatio a b ∧ pyRatio a b ≤ 100 := by
  unfold pyRatio
  split_ifs with h
  · norm_num
  · have hpos : (0 : ℚ) < (a.length : ℚ) + (b.length : ℚ) := by
      have : 0 < a.length + b.length := Nat.pos_of_ne_zero h
      exact_mod_cast this
    have hd0 : (0 : ℚ) ≤ (indelDist a b : ℚ) := by positivity
    have hdle : (indelDist a b : ℚ) ≤ (a.length : ℚ) + (b.length : ℚ) := by
      exact_mod_cast indelDist_le a b
    constructor
    · apply mul_nonneg (by norm_num)
      apply div_nonneg _ hpos.le
      linarith
    · have hX : (((a.length + b.length : ℚ) - indelDist a b) / ((a.length : ℚ) + b.length)) ≤ 1 := by
        rw [div_le_one hpos]
        linarith
      calc 100 * (((a.length + b.length : ℚ) - indelDist a b) / ((a.length : ℚ) + b.length))
          ≤ 100 * 1 := mul_le_mul_of_nonneg_left hX (by norm_num)
        _ = 100 := by norm_num

lemma maxQ_nonneg (l : List ℚ) : 0 ≤ maxQ l := by
  induction l with
  | nil => simp [maxQ]
  | cons x t ih => simp only [maxQ, List.foldr_cons] at *; exact le_max_of_le_right ih

lemma maxQ_le (l : List ℚ) (c : ℚ) (hc : 0 ≤ c) (h : ∀ x ∈ l, x ≤ c) : maxQ l ≤ c := by
  induction l with
  | nil => simpa [maxQ]
  | cons x t ih =>
      simp only [maxQ, List.foldr_cons] at *
      exact max_le (h x (by simp)) (ih (fun y hy => h y (by simp [hy])))

lemma pyPartialRatio_bounds (a b : Str) : 0 ≤ pyPartialRatio a b ∧ pyPartialRatio a b ≤ 100 := by
  unfold pyPartialRatio
  refine ⟨maxQ_nonneg _, maxQ_le _ _ (by norm_num) ?_⟩
  intro x hx
  rcases List.mem_map.mp hx with ⟨w, _, rfl⟩
  exact (pyRatio_bounds _ _).2

lemma pyTokenSortRatio_bounds (a b : Str) :
    0 ≤ pyTokenSortRatio a b ∧ pyTokenSortRatio a b ≤ 100 := pyRatio_bounds _ _

lemma pyTokenSetRatio_bounds (a b : Str) :
    0 ≤ pyTokenSetRatio a b ∧ pyTokenSetRatio a b ≤ 100 := by
  unfold pyTokenSetRatio
  simp only
  constructor
  · exact le_trans (pyRatio_bounds _ _).1 (le_max_left _ _)
  · exact max_le (pyRatio_bounds _ _).2 (max_le (pyRatio_bounds _ _).2 (pyRatio_bounds _ _).2)

/-- Every individual similarity metric lies in `[0, 1]`. -/
lemma similarityScores_bounds (t1 t2 : Str) :
    ∀ kv ∈ calculateSimilarityScores t1 t2, 0 ≤ kv.2 ∧ kv.2 ≤ 1 := by
  intro kv hkv
  unfold calculateSimilarityScores at hkv
  simp only [List.mem_cons, List.mem_singleton] at hkv
  have hbounds100 : ∀ q : ℚ, 0 ≤ q → q ≤ 100 → 0 ≤ q / 100 ∧ q / 100 ≤ 1 := by
    intro q h0 h100
    constructor
    · positivity
    · rw [div_le_one (by norm_num)]; exact h100
  rcases hkv with h | h | h | h | h | h | h
  · subst h
    simp only
    split_ifs with hlen
    · set m := max (normalizeText t1).length (normalizeText t2).length with hm
      have hle : (levDist (normalizeText t1) (normalizeText t2) : ℚ) ≤ (m : ℚ) := by
        exact_mod_cast levDist_le _ _
      have hpos : (0 : ℚ) < (m : ℚ) := by exact_mod_cast hlen
      constructor
      · have : (levDist (normalizeText t1) (normalizeText t2) : ℚ) / (m : ℚ) ≤ 1 := by
          rw [div_le_one hpos]; exact hle
        linarith
      · have : 0 ≤ (levDist (normalizeText t1) (normalizeText t2) : ℚ) / (m : ℚ) := by
          positivity
        linarith
    · norm_num
  · subst h; exact hbounds100 _ (pyRatio_bounds _ _).1 (pyRatio_bounds _ _).2
  · subst h; exact hbounds100 _ (pyPartialRatio_bounds _ _).1 (pyPartialRatio_bounds _ _).2
  · subst h; exact hbounds100 _ (pyTokenSortRatio_bounds _ _).1 (pyTokenSortRatio_bounds _ _).2
  · subst h; exact hbounds100 _ (pyTokenSetRatio_bounds _ _).1 (pyTokenSetRatio_bounds _ _).2
  · subst h
    simp only
    split_ifs with h1 h2
    · have hsub : ((pySplitWs (normalizeText t1)).toFinset ∩ (pySplitWs (normalizeText t2)).toFinset).card ≤
          ((pySplitWs (normalizeText t1)).toFinset ∪ (pySplitWs (normalizeText t2)).toFinset).card :=
        Finset.card_le_card Finset.inter_subset_union
      have hpos : (0 : ℚ) <
          (((pySplitWs (normalizeText t1)).toFinset ∪ (pySplitWs (normalizeText t2)).toFinset).card : ℚ) := by
        exact_mod_cast h2
      constructor
      · positivity
      · rw [div_le_one hpos]; exact_mod_cast hsub
    · norm_num
    · norm_num
  · simp at h

/-- The aggregate of scores lying in `[0, 1]` lies in `[0, 1]`. -/
lemma calculateConfidence_bounds (scores : List (Str × ℚ))
    (h : ∀ kv ∈ scores, 0 ≤ kv.2 ∧ kv.2 ≤ 1) :
    0 ≤ calculateConfidence scores ∧ calculateConfidence scores ≤ 1 := by
  unfold calculateConfidence
  rw [confFold_eq]
  simp only
  set num := (scores.map (fun ms => if (dictGet metricWeights ms.1).isSome then ms.2 * weightOf ms.1 else 0)).sum with hnum
  set den := (scores.map (fun ms => if (dictGet metricWeights ms.1).isSome then weightOf ms.1 else 0)).sum with hden
  have hnum0 : 0 ≤ num := by
    apply List.sum_nonneg
    intro x hx
    rcases List.mem_map.mp hx with ⟨kv, hkv, rfl⟩
    split
    · exact mul_nonneg (h kv hkv).1 (weightOf_nonneg _)
    · exact le_refl 0
  have hnd : num ≤ den := by
    rw [hnum, hden]
    apply List.sum_le_sum
    intro kv hkv
    split
    · exact mul_le_of_le_one_left (weightOf_nonneg _) (h kv hkv).2
    · exact le_refl 0
  split_ifs with hpos
  · exact ⟨div_nonneg hnum0 hpos.le, (div_le_one hpos).mpr hnd⟩
  · norm_num

lemma dictGet_insert_self {α : Type} (d : List (Str × α)) (k : Str) (v : α) :
    dictGet (dictInsert d k v) k = some v := by
  induction d with
  | nil => simp [dictInsert, dictGet]
  | cons kv t ih =>
      by_cases h : kv.1 = k
      · simp [dictInsert, dictGet, h]
      · simp [dictInsert, dictGet, h, ih]

lemma dictGet_insert_ne {α : Type} (d : List (Str × α)) (k k' : Str) (v : α)
    (h : k' ≠ k) : dictGet (dictInsert d k v) k' = dictGet d k' := by
  induction d with
  | nil =>
      simp only [dictInsert, dictGet]
      rw [if_neg (fun hh => h hh.symm)]
  | cons kv t ih =>
      by_cases h1 : kv.1 = k
      · subst h1
        simp [dictInsert, dictGet, show ¬ (kv.1 = k') from fun hh => h hh.symm]
      · by_cases h2 : kv.1 = k'
        · simp [dictInsert, dictGet, h1, h2, h]
        · simp [dictInsert, dictGet, h1, h2, ih]

lemma mem_dictInsert {α : Type} {d : List (Str × α)} {k : Str} {v : α} {kv : Str × α}
    (h : kv ∈ dictInsert d k v) : kv ∈ d ∨ kv = (k, v) := by
  induction d with
  | nil => simpa [dictInsert] using h
  | cons kv' t ih =>
      by_cases h1 : kv'.1 = k
      · simp only [dictInsert, if_pos h1, List.mem_cons] at h
        rcases h with h | h
        · right; rw [h, ← h1]
        · left; simp [h]
      · simp only [dictInsert, if_neg h1, List.mem_cons] at h
        rcases h with h | h
        · left; simp [h]
        · rcases ih h with h' | h'
          · left; simp [h']
          · right; exact h'

lemma mem_of_dictGet {α : Type} {d : List (Str × α)} {k : Str} {v : α}
    (h : dictGet d k = some v) : (k, v) ∈ d := by
  induction d with
  | nil => simp [dictGet] at h
  | cons kv t ih =>
      by_cases h1 : kv.1 = k
      · simp only [dictGet, if_pos h1] at h
        cases h
        rw [← h1]
        exact List.mem_cons_self _ _
      · simp only [dictGet, if_neg h1] at h
        exact List.mem_cons_of_mem _ (ih h)

/-- Source: `dedupStep` characterized at the inserted key. -/
lemma dedupStep_get_self (d : List (Str × EntityMatch)) (m : EntityMatch) :
    ∃ mm, dictGet (dedupStep d m) m.dbpediaUri = some mm ∧
      m.confidenceScore ≤ mm.confidenceScore ∧
      (∀ m0, dictGet d m.dbpediaUri = some m0 → m0.confidenceScore ≤ mm.confidenceScore) := by
  rcases hg : dictGet d m.dbpediaUri with _ | m0
  · refine ⟨m, ?_, le_refl _, ?_⟩
    · simp only [dedupStep, hg]
      exact dictGet_insert_self _ _ _
    · intro m0 h0
      cases h0
  · by_cases hc : m0.confidenceScore < m.confidenceScore
    · refine ⟨m, ?_, le_refl _, ?_⟩
      · simp only [dedupStep, hg, if_pos hc]
        exact dictGet_insert_self _ _ _
      · intro m1 h1
        cases h1
        exact hc.le
    · refine ⟨m0, ?_, not_lt.mp hc, ?_⟩
      · simp only [dedupStep, hg, if_neg hc]
      · intro m1 h1
        cases h1
        exact le_refl _

/-- Source: `dedupStep` leaves other keys untouched. -/
lemma dedupStep_get_ne (d : List (Str × EntityMatch)) (m : EntityMatch) (k : Str)
    (h : k ≠ m.dbpediaUri) : dictGet (dedupStep d m) k = dictGet d k := by
  rcases hg : dictGet d m.dbpediaUri with _ | m0
  · simp only [dedupStep, hg]
    exact dictGet_insert_ne _ _ _ _ h
  · simp only [dedupStep, hg]
    split_ifs
    · exact dictGet_insert_ne _ _ _ _ h
    · rfl

/-- Entries after one step come from the old dictionary or the new match. -/
lemma dedupStep_mem {d : List (Str × EntityMatch)} {m : EntityMatch} {kv : Str × EntityMatch}
    (h : kv ∈ dedupStep d m) : kv ∈ d ∨ kv = (m.dbpediaUri, m) := by
  rcases hg : dictGet d m.dbpediaUri with _ | m0
  · simp only [dedupStep, hg] at h
    exact mem_dictInsert h
  · simp only [dedupStep, hg] at h
    split_ifs at h
    · exact mem_dictInsert h
    · exact Or.inl h

/-- Fold invariant: every entry of the accumulator either was there or
comes from the processed list. -/
lemma dedupFold_src (ms : List EntityMatch) :
    ∀ (d : List (Str × EntityMatch)), ∀ kv ∈ ms.foldl dedupStep d, kv ∈ d ∨ kv.2 ∈ ms := by
  induction ms with
  | nil => intro d kv h; exact Or.inl h
  | cons m t ih =>
      intro d kv h
      rw [List.foldl_cons] at h
      rcases ih (dedupStep d m) kv h with h' | h'
      · rcases dedupStep_mem h' with h'' | h''
        · exact Or.inl h''
        · right; simp [h'']
      · right; simp [h']

/-- Fold invariant: an entry's confidence never decreases along the fold. -/
lemma dedupFold_mono (ms : List EntityMatch) :
    ∀ (d : List (Str × EntityMatch)) (k : Str) (m0 : EntityMatch),
      dictGet d k = some m0 →
      ∃ m1, dictGet (ms.foldl dedupStep d) k = some m1 ∧
        m0.confidenceScore ≤ m1.confidenceScore := by
  induction ms with
  | nil => intro d k m0 h; exact ⟨m0, h, le_refl _⟩
  | cons m t ih =>
      intro d k m0 h
      rw [List.foldl_cons]
      by_cases hk : k = m.dbpediaUri
      · subst hk
        rcases dedupStep_get_self d m with ⟨mm, h1, _, h3⟩
        rcases ih _ _ _ h1 with ⟨m1, h4, h5⟩
        exact ⟨m1, h4, le_trans (h3 m0 h) h5⟩
      · exact ih _ _ _ ((dedupStep_get_ne d m k hk).trans h)

/-- Fold invariant: after processing `ms`, the entry stored at key `k`
beats every element of `ms` whose URI is `k`. -/
lemma dedupFold_max (ms : List EntityMatch) :
    ∀ (d : List (Str × EntityMatch)) (k : Str) (m1 : EntityMatch),
      dictGet (ms.foldl dedupStep d) k = some m1 →
      ∀ m' ∈ ms, m'.dbpediaUri = k → m'.confidenceScore ≤ m1.confidenceScore := by
  induction ms with
  | nil => intro d k m1 _ m' h'; simp at h'
  | cons m t ih =>
      intro d k m1 hget m' hm' huri
      rw [List.foldl_cons] at hget
      rcases List.mem_cons.mp hm' with rfl | hmem
      · rcases dedupStep_get_self d m' with ⟨mm, h1, h2, _⟩
        rw [huri] at h1
        rcases dedupFold_mono t _ _ _ h1 with ⟨m2, h4, h5⟩
        rw [hget] at h4
        cases h4
        exact le_trans h2 h5
      · exact ih _ _ _ hget m' hmem huri

/-- Fold invariant: every processed URI is present afterwards. -/
lemma dedupFold_cover (ms : List EntityMatch) :
    ∀ (d : List (Str × EntityMatch)), ∀ m ∈ ms,
      ∃ m1, dictGet (ms.foldl dedupStep d) m.dbpediaUri = some m1 := by
  induction ms with
  | nil => intro d m h; simp at h
  | cons m0 t ih =>
      intro d m hm
      rw [List.foldl_cons]
      rcases List.mem_cons.mp hm with rfl | hmem
      · rcases dedupStep_get_self d m with ⟨mm, h1, _, _⟩
        rcases dedupFold_mono t _ _ _ h1 with ⟨m1, h2, _⟩
        exact ⟨m1, h2⟩
      · exact ih _ m hmem

lemma mem_keys_dictInsert {α : Type} {d : List (Str × α)} {k x : Str} {v : α}
    (h : x ∈ (dictInsert d k v).map (·.1)) : x ∈ d.map (·.1) ∨ x = k := by
  rcases List.mem_map.mp h with ⟨kv, hkv, rfl⟩
  rcases mem_dictInsert hkv with h' | h'
  · exact Or.inl (List.mem_map.mpr ⟨kv, h', rfl⟩)
  · right; rw [h']

lemma dictInsert_keys_nodup {α : Type} (d : List (Str × α)) (k : Str) (v : α)
    (h : (d.map (·.1)).Nodup) : ((dictInsert d k v).map (·.1)).Nodup := by
  induction d with
  | nil => simp [dictInsert]
  | cons kv t ih =>
      rcases List.nodup_cons.mp h with ⟨hk, ht⟩
      by_cases h1 : kv.1 = k
      · simp only [dictInsert, if_pos h1, List.map_cons]
        exact List.nodup_cons.mpr ⟨hk, ht⟩
      · simp only [dictInsert, if_neg h1, List.map_cons]
        refine List.nodup_cons.mpr ⟨?_, ih ht⟩
        intro hmem
        rcases mem_keys_dictInsert hmem with h' | h'
        · exact hk h'
        · exact h1 h'

lemma dictGet_of_mem {α : Type} {d : List (Str × α)} (hnodup : (d.map (·.1)).Nodup)
    {k : Str} {v : α} (h : (k, v) ∈ d) : dictGet d k = some v := by
  induction d with
  | nil => simp at h
  | cons kv t ih =>
      rcases List.nodup_cons.mp hnodup with ⟨hk, ht⟩
      rcases List.mem_cons.mp h with rfl | hmem
      · simp [dictGet]
      · have hne : ¬ (kv.1 = k) := by
          intro hh
          have hmk : k ∈ t.map (·.1) := List.mem_map.mpr ⟨(k, v), hmem, rfl⟩
          rw [← hh] at hmk
          exact hk hmk
        simp only [dictGet, if_neg hne]
        exact ih ht hmem

lemma dedupFold_keysNodup (ms : List EntityMatch) :
    ∀ (d : List (Str × EntityMatch)), (d.map (·.1)).Nodup →
      ((ms.foldl dedupStep d).map (·.1)).Nodup := by
  induction ms with
  | nil => intro d h; exact h
  | cons m t ih =>
      intro d h
      rw [List.foldl_cons]
      apply ih
      rcases hg : dictGet d m.dbpediaUri with _ | m0
      · simp only [dedupStep, hg]
        exact dictInsert_keys_nodup _ _ _ h
      · simp only [dedupStep, hg]
        split_ifs
        · exact dictInsert_keys_nodup _ _ _ h
        · exact h

lemma dedupFold_keyuri (ms : List EntityMatch) :
    ∀ (d : List (Str × EntityMatch)), (∀ kv ∈ d, kv.1 = kv.2.dbpediaUri) →
      ∀ kv ∈ ms.foldl dedupStep d, kv.1 = kv.2.dbpediaUri := by
  induction ms with
  | nil => intro d h kv hkv; exact h kv hkv
  | cons m t ih =>
      intro d h kv hkv
      rw [List.foldl_cons] at hkv
      refine ih (dedupStep d m) ?_ kv hkv
      intro kv' hkv'
      rcases dedupStep_mem hkv' with h' | h'
      · exact h kv' h'
      · rw [h']

/-- C5: `_deduplicate_matches` keeps, per target URI, exactly the
highest-confidence match (the pairwise case and, in general: the output is
a subset of the input, carries no duplicated URI, dominates every input
match with the same URI, and covers every input URI); the
`find_matching_entities` post-processing then sorts by confidence
descending and truncates to `max_candidates`, which is initialised to 10. -/
theorem c5_dedup_sort_truncate :
    (∀ m1 m2 : EntityMatch, m1.dbpediaUri = m2.dbpediaUri →
        m1.confidenceScore ≠ m2.confidenceScore →
        deduplicateMatches [m1, m2] =
          [if m1.confidenceScore < m2.confidenceScore then m2 else m1]) ∧
    (∀ ms : List EntityMatch, ∀ m ∈ deduplicateMatches ms,
        m ∈ ms ∧ ∀ m' ∈ ms, m'.dbpediaUri = m.dbpediaUri →
          m'.confidenceScore ≤ m.confidenceScore) ∧
    (∀ ms : List EntityMatch,
        (deduplicateMatches ms).Pairwise (fun a b => a.dbpediaUri ≠ b.dbpediaUri)) ∧
    (∀ ms : List EntityMatch, ∀ m ∈ ms,
        ∃ mk ∈ deduplicateMatches ms, mk.dbpediaUri = m.dbpediaUri) ∧
    (∀ ms : List EntityMatch, (findMatchingPostProcess 10 ms).Pairwise
        (fun a b => b.confidenceScore ≤ a.confidenceScore)) ∧
    (∀ ms : List EntityMatch, (findMatchingPostProcess 10 ms).length ≤ 10) := by
  have hmemval : ∀ (ms : List EntityMatch), ∀ m ∈ deduplicateMatches ms,
      ∃ kv ∈ ms.foldl dedupStep [], kv.2 = m := by
    intro ms m hm
    rcases List.mem_map.mp hm with ⟨kv, hkv, rfl⟩
    exact ⟨kv, hkv, rfl⟩
  refine ⟨?_, ?_, ?_, ?_, ?_, ?_⟩
  · -- pairwise deduplication
    intro m1 m2 huri hconf
    unfold deduplicateMatches
    simp only [List.foldl_cons, List.foldl_nil]
    have hstep1 : dedupStep [] m1 = [(m1.dbpediaUri, m1)] := by
      simp [dedupStep, dictGet, dictInsert]
    rw [hstep1]
    by_cases hc : m1.confidenceScore < m2.confidenceScore
    · simp [dedupStep, dictGet, dictInsert, huri, hc]
    · simp [dedupStep, dictGet, dictInsert, huri, hc]
  · -- source and maximality
    intro ms m hm
    rcases hmemval ms m hm with ⟨kv, hkv, rfl⟩
    constructor
    · rcases dedupFold_src ms [] kv hkv with h | h
      · simp at h
      · exact h
    · intro m' hm' huri
      have hkey : kv.1 = kv.2.dbpediaUri := dedupFold_keyuri ms [] (by simp) kv hkv
      have hnodup := dedupFold_keysNodup ms [] (by simp)
      have hget : dictGet (ms.foldl dedupStep []) kv.1 = some kv.2 := by
        apply dictGet_of_mem hnodup
        cases kv
        exact hkv
      exact dedupFold_max ms [] kv.1 kv.2 hget m' hm' (by rw [huri, hkey])
  · -- no duplicated URI in the output
    intro ms
    have hnodup := dedupFold_keysNodup ms [] (by simp)
    have hpw := (List.pairwise_map.mp hnodup)
    unfold deduplicateMatches
    rw [List.pairwise_map]
    refine hpw.imp_of_mem ?_
    intro kv kv' hkv hkv' hne
    have h1 := dedupFold_keyuri ms [] (by simp) kv hkv
    have h2 := dedupFold_keyuri ms [] (by simp) kv' hkv'
    rw [← h1, ← h2]
    exact hne
  · -- URI coverage
    intro ms m hm
    rcases dedupFold_cover ms [] m hm with ⟨m1, hget⟩
    refine ⟨m1, ?_, ?_⟩
    · exact List.mem_map.mpr ⟨(m.dbpediaUri, m1), mem_of_dictGet hget, rfl⟩
    · exact (dedupFold_keyuri ms [] (by simp) _ (mem_of_dictGet hget)).symm
  · -- sorted descending by confidence
    intro ms
    have hs := List.sorted_insertionSort
      (fun a b : EntityMatch => b.confidenceScore ≤ a.confidenceScore)
      (deduplicateMatches ms)
    exact hs.sublist (List.take_sublist _ _)
  · -- truncation to at most 10
    intro ms
    unfold findMatchingPostProcess
    simp [List.length_take]

/-- Witness for C5 at a concrete input: of two matches with the same
target URI and confidences 1/2 < 3/4, deduplication keeps exactly the
higher one. -/
theorem c5_dedup_sort_truncate_witness :
    deduplicateMatches [c5MatchA, c5MatchB] = [c5MatchB] := by
  have h := c5_dedup_sort_truncate.1 c5MatchA c5MatchB rfl
    (by norm_num [c5MatchA, c5MatchB])
  rw [h, if_pos (show c5MatchA.confidenceScore < c5MatchB.confidenceScore by
    norm_num [c5MatchA, c5MatchB])]

lemma mem_findMatchingPostProcess {n : Nat} {ms : List EntityMatch} {m : EntityMatch}
    (h : m ∈ findMatchingPostProcess n ms) : m ∈ ms := by
  unfold findMatchingPostProcess at h
  have h1 := (List.take_sublist _ _).subset h
  have h2 := (List.perm_insertionSort
    (fun a b : EntityMatch => b.confidenceScore ≤ a.confidenceScore) _).subset h1
  rcases List.mem_map.mp h2 with ⟨kv, hkv, rfl⟩
  rcases dedupFold_src ms [] kv hkv with h' | h'
  · simp at h'
  · exact h'

/-- C8: every match produced by the matching pipeline carries a
confidence score in `[0, 1]` — the fixed scores 0.95 and 0.9 of the direct
and language-link strategies, and the similarity aggregate, which lies in
`[0, 1]` because every individual metric does. -/
theorem c8_confidence_in_unit_interval (vi : Str) (mapped : Option Str)
    (queryResult : Str → Option Str) (langResult : Option (Str × Str))
    (simResults : List (Str × Str × Str)) (propResults : List (Str × Str)) :
    ∀ m ∈ findMatchingEntities vi mapped queryResult langResult simResults propResults,
      0 ≤ m.confidenceScore ∧ m.confidenceScore ≤ 1 := by
  intro m hm
  unfold findMatchingEntities at hm
  have hmem := mem_findMatchingPostProcess hm
  simp only [List.mem_append] at hmem
  rcases hmem with ((hd | hl) | hs) | hp
  · -- direct mapping: fixed 0.95
    rcases hmap : findDirectMapping vi mapped queryResult with _ | m0
    · rw [hmap] at hd; simp at hd
    · rw [hmap] at hd
      simp only [List.mem_singleton] at hd
      subst hd
      unfold findDirectMapping at hmap
      rcases mapped with _ | en
      · simp at hmap
      · dsimp only at hmap
        rcases hq : queryResult en with _ | uri
        · rw [hq] at hmap; simp at hmap
        · rw [hq] at hmap
          simp only [Option.some.injEq] at hmap
          rw [← hmap]
          norm_num
  · -- language link: fixed 0.9
    unfold findLanguageLinkMatches at hl
    rcases langResult with _ | p
    · simp at hl
    · rcases p with ⟨title, uri⟩
      simp only [List.mem_singleton] at hl
      subst hl
      norm_num
  · -- similarity search: aggregate of bounded metrics
    unfold findSimilarityMatches at hs
    rcases List.mem_filterMap.mp hs with ⟨row, _, hrow⟩
    simp only at hrow
    split_ifs at hrow with hth
    rcases Option.some.inj hrow with rfl
    exact calculateConfidence_bounds _ (similarityScores_bounds _ _)
  · -- property-based search: same aggregate
    unfold findPropertyBasedMatches at hp
    rcases List.mem_filterMap.mp hp with ⟨row, _, hrow⟩
    simp only at hrow
    split_ifs at hrow with hth
    rcases Option.some.inj hrow with rfl
    exact calculateConfidence_bounds _ (similarityScores_bounds _ _)

/-- Witness for C8 at a concrete input: a direct-mapping match returned
by the pipeline carries confidence 0.95 ∈ [0, 1]. -/
theorem c8_confidence_in_unit_interval_witness :
    0 ≤ c8DirectConcrete.confidenceScore ∧ c8DirectConcrete.confidenceScore ≤ 1 :=
  c8_confidence_in_unit_interval "Hà Nội".toList (some "Hanoi".toList)
    (fun _ => some "http://dbpedia.org/resource/Hanoi".toList) none [] []
    c8DirectConcrete (by exact List.mem_singleton.mpr rfl)

/-- C6: a match is suppressed at export whenever its target URI mentions a
Vietnamese-graph pattern (in particular any URI containing
`vi.dbpedia.org`, regardless of confidence — `_is_self_link` never reads
the confidence), or the normalized names coincide, or the candidate is the
diacritic-stripped source; a suppressed match contributes no triples to
the export; and the matching-side post-processing applies no such
filtering (a lone self-link match survives it unchanged). -/
theorem c6_self_link_suppression :
    (∀ vi en uri : Str, strContains (lowerStr uri) "vi.dbpedia.org".toList = true →
        isSelfLink vi en uri = true) ∧
    (∀ vi en uri : Str, normalizeText vi = normalizeText en →
        isSelfLink vi en uri = true) ∧
    (∀ vi en uri : Str, normalizeText (stripDiacriticsNFD vi) = normalizeText en →
        isSelfLink vi en uri = true) ∧
    (∀ (h : Str → Int) (entity : Str) (g : RdfGraph) (ms1 ms2 : List EntityMatch)
        (m : EntityMatch), isSelfLink entity m.englishEntity m.dbpediaUri = true →
        exportEntityLinks h entity (ms1 ++ m :: ms2) g =
          exportEntityLinks h entity (ms1 ++ ms2) g) ∧
    (∀ m : EntityMatch, findMatchingPostProcess 10 [m] = [m]) := by
  refine ⟨?_, ?_, ?_, ?_, ?_⟩
  · intro vi en uri hc
    unfold isSelfLink
    rw [if_pos]
    exact List.any_eq_true.mpr ⟨"vi.dbpedia.org".toList, by simp [vietnamesePatterns], hc⟩
  · intro vi en uri hn
    unfold isSelfLink
    split_ifs <;> simp_all
  · intro vi en uri hn
    unfold isSelfLink
    split_ifs <;> simp_all
  · intro h entity g ms1 ms2 m hself
    unfold exportEntityLinks
    rw [List.foldl_append, List.foldl_append, List.foldl_cons, if_pos hself]
  · intro m
    unfold findMatchingPostProcess deduplicateMatches
    simp [dedupStep, dictGet, dictInsert, List.insertionSort, List.orderedInsert]

/-- Witness for C6 at a concrete input: linking `"Hà Nội"` to a candidate
whose URI contains `vi.dbpedia.org` is discarded at export even at
confidence 1.0. -/
theorem c6_self_link_suppression_witness :
    isSelfLink "Hà Nội".toList c6HanoiSelfMatch.englishEntity
      c6HanoiSelfMatch.dbpediaUri = true ∧
    exportEntityLinks (fun _ => 0) "Hà Nội".toList [c6HanoiSelfMatch] [] = [] := by
  have h1 := c6_self_link_suppression.1 "Hà Nội".toList c6HanoiSelfMatch.englishEntity
    c6HanoiSelfMatch.dbpediaUri (by decide)
  refine ⟨h1, ?_⟩
  have h2 := c6_self_link_suppression.2.2.2.1 (fun _ => 0) "Hà Nội".toList [] [] []
    c6HanoiSelfMatch h1
  simpa [exportEntityLinks] using h2

/-- C9: any match whose target URI contains (after ASCII lowercasing) one
of the four substrings `vi.dbpedia.org`, `/vi/`, `vietnamese`, `viet` is a
self-link and contributes no triples to the RDF export, regardless of its
confidence or match method. -/
theorem c9_vietnamese_pattern_suppression :
    (∀ vi en uri : Str,
        vietnamesePatterns.any (fun p => strContains (lowerStr uri) p) = true →
        isSelfLink vi en uri = true) ∧
    (∀ (h : Str → Int) (entity : Str) (g : RdfGraph) (ms1 ms2 : List EntityMatch)
        (m : EntityMatch),
        vietnamesePatterns.any (fun p => strContains (lowerStr m.dbpediaUri) p) = true →
        exportEntityLinks h entity (ms1 ++ m :: ms2) g =
          exportEntityLinks h entity (ms1 ++ ms2) g) := by
  have hself : ∀ vi en uri : Str,
      vietnamesePatterns.any (fun p => strContains (lowerStr uri) p) = true →
      isSelfLink vi en uri = true := by
    intro vi en uri hc
    unfold isSelfLink
    rw [if_pos hc]
  refine ⟨hself, ?_⟩
  intro h entity g ms1 ms2 m hc
  unfold exportEntityLinks
  rw [List.foldl_append, List.foldl_append, List.foldl_cons,
    if_pos (hself entity m.englishEntity m.dbpediaUri hc)]

/-- Witness for C9 at a concrete input: the candidate URI
`http://dbpedia.org/resource/Vietnam` contains `viet` case-insensitively,
so the match is suppressed at export even at confidence 1.0. -/
theorem c9_vietnamese_pattern_suppression_witness :
    isSelfLink c9VietnamMatch.vietnameseEntity c9VietnamMatch.englishEntity
      c9VietnamMatch.dbpediaUri = true ∧
    exportEntityLinks (fun _ => 0) "Việt Nam".toList [c9VietnamMatch] [] = [] := by
  constructor
  · exact c9_vietnamese_pattern_suppression.1 c9VietnamMatch.vietnameseEntity
      c9VietnamMatch.englishEntity c9VietnamMatch.dbpediaUri (by decide)
  · have h2 := c9_vietnamese_pattern_suppression.2 (fun _ => 0) "Việt Nam".toList [] [] []
      c9VietnamMatch (by decide)
    simpa [exportEntityLinks] using h2

lemma dictInsert_ne_nil {α : Type} (d : List (Str × α)) (k : Str) (v : α) :
    dictInsert d k v ≠ [] := by
  cases d with
  | nil => simp [dictInsert]
  | cons kv t =>
      simp only [dictInsert]
      split <;> simp

lemma dictUpdate_ne_nil {α : Type} (d1 d2 : List (Str × α)) (h : d1 ≠ []) :
    dictUpdate d1 d2 ≠ [] := by
  induction d2 generalizing d1 with
  | nil => simpa [dictUpdate]
  | cons kv t ih =>
      unfold dictUpdate at *
      rw [List.foldl_cons]
      exact ih _ (dictInsert_ne_nil _ _ _)

lemma infoboxStep_ne_nil (ib : List (Str × Str)) (g : Str) : infoboxStep ib g ≠ [] :=
  dictUpdate_ne_nil _ _ (dictInsert_ne_nil _ _ _)

/-- The inner loop breaks after the first match: the dictionary is
non-empty as soon as `template_type` is stored. -/
lemma processMatches_head (ib : List (Str × Str)) (ms : List Str) :
    processMatches ib ms = match ms with
      | [] => ib
      | g :: _ => infoboxStep ib g := by
  cases ms with
  | nil => rfl
  | cons g rest => simp [processMatches, infoboxStep_ne_nil]

/-- C2 counterexample: a wikitext holding one `Thông tin` infobox and one
`Infobox` infobox.  The claim says only the first infobox's mapping is
returned (`template_type` "a", field `x` only); the code merges both,
takes `template_type` from the second pattern's infobox, and keeps `y`. -/
theorem c2_counterexample :
    parseInfoboxFromWikitext "\x7b\x7bThông tin a|x=1\x7d\x7d\x7b\x7bInfobox b|y=2\x7d\x7d".toList =
      [("template_type".toList, "b".toList), ("x".toList, "1".toList),
       ("y".toList, "2".toList)] ∧
    parseInfoboxFromWikitext "\x7b\x7bThông tin a|x=1\x7d\x7d\x7b\x7bInfobox b|y=2\x7d\x7d".toList ≠
      [("template_type".toList, "a".toList), ("x".toList, "1".toList)] := by
  refine ⟨by decide, by decide⟩

/-- C2 (amended): within each recognized opening pattern only the first
successfully parsed infobox is used (later instances of the same pattern
are never merged), but one infobox per pattern is parsed: their fields are
merged across the three patterns in fixed order and `template_type` is
overwritten by each later pattern that matches.  The spec's single-infobox
example parses as stated. -/
theorem c2_infobox_first_per_pattern :
    (∀ s : Str, parseInfoboxFromWikitext s = parseInfoboxFirstPerPattern s) ∧
    parseInfoboxFromWikitext
        "\x7b\x7bThông tin nhân vật|tên=Nguyễn Văn A|ngày sinh=01/01/1990\x7d\x7d".toList =
      [("template_type".toList, "nhân vật".toList),
       ("tên".toList, "Nguyễn Văn A".toList),
       ("ngày sinh".toList, "01/01/1990".toList)] := by
  constructor
  · intro s
    simp only [parseInfoboxFromWikitext, parseInfoboxFirstPerPattern, infoboxPats,
      List.foldl_cons, List.foldl_nil, processMatches_head]
  · decide

lemma isDigitC_bounds {c : Char} (h : isDigitC c = true) : 48 ≤ c.toNat ∧ c.toNat ≤ 57 := by
  simpa [isDigitC] using h

lemma lowerChar_digit {c : Char} (h : isDigitC c = true) : lowerChar c = c := by
  have hb := isDigitC_bounds h
  unfold lowerChar
  rw [if_neg]
  omega

lemma ne_of_digit_nondigit {x : Char} (hx : isDigitC x = true) (c₀ : Char)
    (h₀ : isDigitC c₀ = false) : x ≠ c₀ := by
  intro he
  rw [he, h₀] at hx
  cases hx

lemma eq_digit_false {x : Char} (hx : isDigitC x = true) (c₀ : Char)
    (h₀ : isDigitC c₀ = false) : (c₀ = x) = False :=
  eq_false (fun he => ne_of_digit_nondigit hx c₀ h₀ he.symm)

lemma c3aux_slash (a b c d e f g h : Char)
    (ha : isDigitC a = true) (hb : isDigitC b = true) (hc : isDigitC c = true)
    (hd : isDigitC d = true) (he : isDigitC e = true) (hf : isDigitC f = true)
    (hg : isDigitC g = true) (hh : isDigitC h = true) :
    parseVietnameseDate [a, b, '/', c, d, '/', e, f, g, h] =
      some [e, f, g, h, '-', c, d, '-', a, b] := by
  have hsl : isDigitC '/' = false := rfl
  simp only [parseVietnameseDate, lowerStr, List.map_cons, List.map_nil,
    lowerChar_digit ha, lowerChar_digit hb, lowerChar_digit hc, lowerChar_digit hd,
    lowerChar_digit he, lowerChar_digit hf, lowerChar_digit hg, lowerChar_digit hh,
    show lowerChar '/' = '/' from rfl]
  rw [if_neg (by simp)]
  have hstrip : stripDatePre [a, b, '/', c, d, '/', e, f, g, h] =
      [a, b, '/', c, d, '/', e, f, g, h] := by
    unfold stripDatePre
    rw [if_neg, if_neg, if_neg] <;>
      simp [strHeadMatch, eq_digit_false ha 'n' rfl, eq_digit_false ha 't' rfl]
  rw [hstrip]
  have hsearch : searchDMY '/' [a, b, '/', c, d, '/', e, f, g, h] =
      some ([a, b], [c, d], [e, f, g, h]) := by
    unfold searchDMY tryDMYAt
    simp [List.takeWhile, List.dropWhile, ha, hb, hc, hd, he, hf, hg, hh, hsl]
  rw [hsearch]
  simp [mkIsoDate, zfill2, ite_self]

lemma c3aux_dash (a b c d e f g h : Char)
    (ha : isDigitC a = true) (hb : isDigitC b = true) (hc : isDigitC c = true)
    (hd : isDigitC d = true) (he : isDigitC e = true) (hf : isDigitC f = true)
    (hg : isDigitC g = true) (hh : isDigitC h = true) :
    parseVietnameseDate [a, b, '-', c, d, '-', e, f, g, h] =
      some [e, f, g, h, '-', c, d, '-', a, b] := by
  have hsl : isDigitC '/' = false := rfl
  have hda : isDigitC '-' = false := rfl
  simp only [parseVietnameseDate, lowerStr, List.map_cons, List.map_nil,
    lowerChar_digit ha, lowerChar_digit hb, lowerChar_digit hc, lowerChar_digit hd,
    lowerChar_digit he, lowerChar_digit hf, lowerChar_digit hg, lowerChar_digit hh,
    show lowerChar '-' = '-' from rfl]
  rw [if_neg (by simp)]
  have hstrip : stripDatePre [a, b, '-', c, d, '-', e, f, g, h] =
      [a, b, '-', c, d, '-', e, f, g, h] := by
    unfold stripDatePre
    rw [if_neg, if_neg, if_neg] <;>
      simp [strHeadMatch, eq_digit_false ha 'n' rfl, eq_digit_false ha 't' rfl]
  rw [hstrip]
  have hs1 : searchDMY '/' [a, b, '-', c, d, '-', e, f, g, h] = none := by
    simp [searchDMY, tryDMYAt, List.takeWhile, List.dropWhile, ha, hb, hc, hd, he, hf,
      hg, hh, hsl, hda, show (('-' : Char) = '/') = False by decide]
  have hs2 : searchDMY '-' [a, b, '-', c, d, '-', e, f, g, h] =
      some ([a, b], [c, d], [e, f, g, h]) := by
    simp [searchDMY, tryDMYAt, List.takeWhile, List.dropWhile, ha, hb, hc, hd, he, hf,
      hg, hh, hda]
  rw [hs1, hs2]
  simp [mkIsoDate, zfill2, ite_self]

lemma c3aux_year (e f g h : Char)
    (he : isDigitC e = true) (hf : isDigitC f = true)
    (hg : isDigitC g = true) (hh : isDigitC h = true) :
    parseVietnameseDate [e, f, g, h] = some [e, f, g, h] := by
  simp only [parseVietnameseDate, lowerStr, List.map_cons, List.map_nil,
    lowerChar_digit he, lowerChar_digit hf, lowerChar_digit hg, lowerChar_digit hh]
  rw [if_neg (by simp)]
  have hstrip : stripDatePre [e, f, g, h] = [e, f, g, h] := by
    unfold stripDatePre
    rw [if_neg, if_neg, if_neg] <;>
      simp [strHeadMatch, eq_digit_false he 'n' rfl, eq_digit_false he 't' rfl]
  rw [hstrip]
  have hs1 : searchDMY '/' [e, f, g, h] = none := by
    simp [searchDMY, tryDMYAt, List.takeWhile, List.dropWhile, he, hf, hg, hh]
  have hs2 : searchDMY '-' [e, f, g, h] = none := by
    simp [searchDMY, tryDMYAt, List.takeWhile, List.dropWhile, he, hf, hg, hh]
  have hs3 : searchYear [e, f, g, h] = some [e, f, g, h] := by
    simp [searchYear, List.takeWhile, List.dropWhile, he, hf, hg, hh]
  rw [hs1, hs2, hs3]

lemma c3aux_thang (d1 m y1 y2 y3 y4 : Char)
    (hd1 : isDigitC d1 = true) (hm : isDigitC m = true)
    (hy1 : isDigitC y1 = true) (hy2 : isDigitC y2 = true)
    (hy3 : isDigitC y3 = true) (hy4 : isDigitC y4 = true) :
    parseVietnameseDate
        [d1, ' ', 't', 'h', 'á', 'n', 'g', ' ', m, ',', ' ', y1, y2, y3, y4] =
      some [y1, y2, y3, y4] := by
  simp only [parseVietnameseDate, lowerStr, List.map_cons, List.map_nil,
    lowerChar_digit hd1, lowerChar_digit hm, lowerChar_digit hy1,
    lowerChar_digit hy2, lowerChar_digit hy3, lowerChar_digit hy4,
    show lowerChar ' ' = ' ' from rfl, show lowerChar 't' = 't' from rfl,
    show lowerChar 'h' = 'h' from rfl, show lowerChar 'á' = 'á' from rfl,
    show lowerChar 'n' = 'n' from rfl, show lowerChar 'g' = 'g' from rfl,
    show lowerChar ',' = ',' from rfl]
  rw [if_neg (by simp)]
  have hstrip : stripDatePre
      [d1, ' ', 't', 'h', 'á', 'n', 'g', ' ', m, ',', ' ', y1, y2, y3, y4] =
      [d1, ' ', 't', 'h', 'á', 'n', 'g', ' ', m, ',', ' ', y1, y2, y3, y4] := by
    unfold stripDatePre
    rw [if_neg, if_neg, if_neg] <;>
      simp [strHeadMatch, eq_digit_false hd1 'n' rfl, eq_digit_false hd1 't' rfl]
  rw [hstrip]
  have hs1 : searchDMY '/'
      [d1, ' ', 't', 'h', 'á', 'n', 'g', ' ', m, ',', ' ', y1, y2, y3, y4] = none := by
    simp [searchDMY, tryDMYAt, List.takeWhile, List.dropWhile, hd1, hm, hy1, hy2,
      hy3, hy4, show isDigitC ' ' = false from rfl, show isDigitC 't' = false from rfl,
      show isDigitC 'h' = false from rfl, show isDigitC 'á' = false from rfl,
      show isDigitC 'n' = false from rfl, show isDigitC 'g' = false from rfl,
      show isDigitC ',' = false from rfl]
  have hs2 : searchDMY '-'
      [d1, ' ', 't', 'h', 'á', 'n', 'g', ' ', m, ',', ' ', y1, y2, y3, y4] = none := by
    simp [searchDMY, tryDMYAt, List.takeWhile, List.dropWhile, hd1, hm, hy1, hy2,
      hy3, hy4, show isDigitC ' ' = false from rfl, show isDigitC 't' = false from rfl,
      show isDigitC 'h' = false from rfl, show isDigitC 'á' = false from rfl,
      show isDigitC 'n' = false from rfl, show isDigitC 'g' = false from rfl,
      show isDigitC ',' = false from rfl]
  have hs3 : searchYear
      [d1, ' ', 't', 'h', 'á', 'n', 'g', ' ', m, ',', ' ', y1, y2, y3, y4] =
      some [y1, y2, y3, y4] := by
    simp [searchYear, List.takeWhile, List.dropWhile, hd1, hm, hy1, hy2, hy3, hy4, show isDigitC ' ' = false from rfl, show isDigitC 't' = false from rfl,
      show isDigitC 'h' = false from rfl, show isDigitC 'á' = false from rfl,
      show isDigitC 'n' = false from rfl, show isDigitC 'g' = false from rfl,
      show isDigitC ',' = false from rfl]
  rw [hs1, hs2, hs3]

lemma c3aux_fallback (ont : OntologyModel) (g : RdfGraph) (value propertyName : Str)
    (hpn : propertyName = "birthDate".toList ∨ propertyName = "deathDate".toList ∨
      propertyName = "foundingDate".toList)
    (hne : pyStrip value ≠ [])
    (hparse : parseVietnameseDate (pyStrip value) = none) :
    processPropertyValue ont g value propertyName =
      (some (Node.lit (LitVal.str (pyStrip value)) (some "vi".toList) none), g) := by
  unfold processPropertyValue
  rw [if_neg hne, if_pos hpn, hparse]

/-- C3 counterexample: a value of the shape `"D tháng M, YYYY"`.  The
claim says it parses to `"1990-03-15"`; the code parses it to `"1990"`,
because the bare-year pattern `(\d{4})` is tried before the `tháng`
pattern and matches any four-digit run. -/
theorem c3_counterexample :
    parseVietnameseDate "15 tháng 3, 1990".toList = some "1990".toList ∧
    parseVietnameseDate "15 tháng 3, 1990".toList ≠ some "1990-03-15".toList := by
  refine ⟨by decide, by decide⟩

/-- C3 (amended): `DD/MM/YYYY` and `DD-MM-YYYY` parse to ISO
`YYYY-MM-DD`; a bare four-digit year parses to the year string; the
`"D tháng M, YYYY"` shape parses to just the year string (its dedicated
pattern is shadowed by the bare-year pattern); unparseable non-blank
values of a date-valued property are preserved as plain
Vietnamese-tagged literals (no error path exists); and the spec's
examples `"15/03/1990"` and `"1945"` parse as stated. -/
theorem c3_vietnamese_date_parsing :
    (∀ a b c d e f g h : Char,
        isDigitC a = true → isDigitC b = true → isDigitC c = true →
        isDigitC d = true → isDigitC e = true → isDigitC f = true →
        isDigitC g = true → isDigitC h = true →
        parseVietnameseDate [a, b, '/', c, d, '/', e, f, g, h] =
            some [e, f, g, h, '-', c, d, '-', a, b] ∧
        parseVietnameseDate [a, b, '-', c, d, '-', e, f, g, h] =
            some [e, f, g, h, '-', c, d, '-', a, b]) ∧
    (∀ e f g h : Char,
        isDigitC e = true → isDigitC f = true → isDigitC g = true →
        isDigitC h = true →
        parseVietnameseDate [e, f, g, h] = some [e, f, g, h]) ∧
    (∀ d1 m y1 y2 y3 y4 : Char,
        isDigitC d1 = true → isDigitC m = true → isDigitC y1 = true →
        isDigitC y2 = true → isDigitC y3 = true → isDigitC y4 = true →
        parseVietnameseDate
            [d1, ' ', 't', 'h', 'á', 'n', 'g', ' ', m, ',', ' ', y1, y2, y3, y4] =
          some [y1, y2, y3, y4]) ∧
    (∀ (ont : OntologyModel) (g : RdfGraph) (value propertyName : Str),
        (propertyName = "birthDate".toList ∨ propertyName = "deathDate".toList ∨
          propertyName = "foundingDate".toList) →
        pyStrip value ≠ [] →
        parseVietnameseDate (pyStrip value) = none →
        processPropertyValue ont g value propertyName =
          (some (Node.lit (LitVal.str (pyStrip value)) (some "vi".toList) none), g)) ∧
    parseVietnameseDate "15/03/1990".toList = some "1990-03-15".toList ∧
    parseVietnameseDate "1945".toList = some "1945".toList := by
  refine ⟨?_, ?_, ?_, c3aux_fallback, by decide, by decide⟩
  · intro a b c d e f g h ha hb hc hd he hf hg hh
    exact ⟨c3aux_slash a b c d e f g h ha hb hc hd he hf hg hh,
           c3aux_dash a b c d e f g h ha hb hc hd he hf hg hh⟩
  · intro e f g h he hf hg hh
    exact c3aux_year e f g h he hf hg hh
  · intro d1 m y1 y2 y3 y4 hd1 hm hy1 hy2 hy3 hy4
    exact c3aux_thang d1 m y1 y2 y3 y4 hd1 hm hy1 hy2 hy3 hy4

/-- Witness for the amended C3 theorem at concrete inputs. -/
theorem c3_vietnamese_date_parsing_witness :
    parseVietnameseDate "15/03/1990".toList = some "1990-03-15".toList ∧
    parseVietnameseDate "15-03-1990".toList = some "1990-03-15".toList ∧
    parseVietnameseDate "1945".toList = some "1945".toList := by
  have h1 := (c3_vietnamese_date_parsing.1 '1' '5' '0' '3' '1' '9' '9' '0'
    (by decide) (by decide) (by decide) (by decide) (by decide) (by decide)
    (by decide) (by decide))
  have h2 := c3_vietnamese_date_parsing.2.1 '1' '9' '4' '5'
    (by decide) (by decide) (by decide) (by decide)
  exact ⟨h1.1, h1.2, h2⟩

lemma determineClassFromCategories_none (ont : OntologyModel) (cats : List Str)
    (hcat : ∀ c ∈ cats, ∀ km ∈ categoryMappings, strContains (lowerStr c) km.1 = false)
    (hperson : dictGet ont.classes "Person".toList = none) :
    determineClassFromCategories ont cats = none := by
  induction cats with
  | nil => exact hperson
  | cons c rest ih =>
      unfold determineClassFromCategories
      rw [List.find?_eq_none.mpr]
      · exact ih (fun c' hc' => hcat c' (List.mem_cons_of_mem _ hc'))
      · intro km hkm
        simp [hcat c (List.mem_cons_self _ _) km hkm]

/-- C10: when no entity class resolves — the infobox template (if any)
has no mapping, no category keyword matches, and the `Person` default is
absent from the class table — `transform_article` returns 0, increments
only `failed_transformations`, and leaves the graph, the entity count and
the other statistics untouched: nothing is added before class
resolution. -/
theorem c10_failed_class_resolution (ont : OntologyModel) (art : WikipediaArticle)
    (st : TransformerState)
    (htm : ∀ tt, dictGet art.infobox "template_type".toList = some tt →
        dictGet ont.mappings tt = none)
    (hcat : ∀ c ∈ art.categories, ∀ km ∈ categoryMappings,
        strContains (lowerStr c) km.1 = false)
    (hperson : dictGet ont.classes "Person".toList = none) :
    determineEntityClass ont art = none ∧
    transformArticle ont art st =
      (0, { st with stats :=
        { st.stats with failedTransformations := st.stats.failedTransformations + 1 } }) ∧
    (transformArticle ont art st).2.graph = st.graph ∧
    (transformArticle ont art st).2.entityCount = st.entityCount ∧
    (transformArticle ont art st).2.stats.articlesProcessed = st.stats.articlesProcessed := by
  have hcats := determineClassFromCategories_none ont art.categories hcat hperson
  have hdet : determineEntityClass ont art = none := by
    unfold determineEntityClass
    rcases hib : (if art.infobox ≠ [] then dictGet art.infobox "template_type".toList
        else none) with _ | tt
    · exact hcats
    · have htt : dictGet art.infobox "template_type".toList = some tt := by
        split at hib
        · exact hib
        · cases hib
      dsimp only
      rw [htm tt htt]
      exact hcats
  have heq : transformArticle ont art st =
      (0, { st with stats :=
        { st.stats with failedTransformations := st.stats.failedTransformations + 1 } }) := by
    unfold transformArticle
    rw [hdet]
  refine ⟨hdet, heq, ?_, ?_, ?_⟩ <;> rw [heq]

/-- Witness for C10 at a concrete input: an article with no infobox, a
category matching no keyword, against an ontology without a `Person`
class. -/
theorem c10_failed_class_resolution_witness :
    transformArticle c10Ont c10Article c10State =
      (0, { c10State with stats :=
        { c10State.stats with
          failedTransformations := c10State.stats.failedTransformations + 1 } }) :=
  (c10_failed_class_resolution c10Ont c10Article c10State
    (fun _ h => Option.noConfusion h) (by decide) (by decide)).2.1
